import Mathlib

/-! celestialcobra: duration parsing and the paginated category query

A shallow embedding of `util/duration.go` (`ParseDuration`) and of
`aws/dynamodb.go` (`QueryByCategory`), followed by the properties proved of
them.

Conventions of the embedding

* Go strings are Lean `String`s, inspected through their list of characters.
* Go `int` and `time.Duration` are 64-bit two's complement integers, Go `int32`
  is a 32-bit one; they are `Int` values and every arithmetic result goes
  through `wrapInt64` / `wrapInt32`.
* A Go `(value, error)` result is a pair whose second component is `none`
  when the error is `nil`.
* A Go map is an association list; a map or pointer that may be `nil` is an
  `Option`, so `none` is the nil map and `some []` an empty, non-nil map.
-/

namespace CelestialCobra

/-! ## Machine integers -/

/-- Two's complement reduction of an integer to 64 bits (Go `int`, `int64`,
`time.Duration`). -/
def wrapInt64 (x : Int) : Int := (x + 2 ^ 63) % 2 ^ 64 - 2 ^ 63

/-- Two's complement reduction of an integer to 32 bits (Go `int32`). -/
def wrapInt32 (x : Int) : Int := (x + 2 ^ 31) % 2 ^ 32 - 2 ^ 31

/-- Largest value of a Go `int` on a 64-bit platform. -/
def maxInt64 : Int := 2 ^ 63 - 1

/-- The constant `time.Hour`, in nanoseconds. -/
def Hour : Int := 3600000000000

/-! ## `util/duration.go` -/

/-- The two failures of `strconv.Atoi`: `strconv.ErrSyntax` and
`strconv.ErrRange`. -/
inductive NumError where
  | syntaxErr
  | rangeErr
  deriving DecidableEq, Repr

/-- The three errors `ParseDuration` can build, one per `fmt.Errorf` call. -/
inductive DurationError where
  /-- "invalid duration format: %s (expected format like 1h, 2d, 3w)" -/
  | invalidFormat (durationStr : String)
  /-- "invalid duration value: %v" -/
  | invalidValue (cause : NumError)
  /-- "unsupported duration unit: %s" -/
  | unsupportedUnit (unit : String)
  deriving DecidableEq, Repr

/-- Value of a string of decimal digits, most significant digit first. -/
def decimalValue (ds : List Char) : Nat :=
  ds.foldl (fun acc c => 10 * acc + (c.toNat - 48)) 0

/-- The function `strconv.Atoi` on a 64-bit platform: an optional sign, then
one or more ASCII digits; a value outside the `int` range is a range error. -/
def Atoi (s : List Char) : Except NumError Int :=
  let (neg, body) :=
    match s with
    | '-' :: t => (true, t)
    | '+' :: t => (false, t)
    | t => (false, t)
  if body.isEmpty || !body.all Char.isDigit then .error .syntaxErr
  else
    let v : Int := decimalValue body
    if neg then
      if v ≤ maxInt64 + 1 then .ok (-v) else .error .rangeErr
    else
      if v ≤ maxInt64 then .ok v else .error .rangeErr

/-- The character class `[hdwmy]`. -/
def isUnitLetter (c : Char) : Bool :=
  c == 'h' || c == 'd' || c == 'w' || c == 'm' || c == 'y'

/-- The call `regexp.MustCompile("^(\\d+)([hdwmy])$").FindStringSubmatch`:
`none` when the text does not match, otherwise the two capture groups.  The
greedy `\d+` takes the longest run of ASCII digits from the start of the text;
as no unit letter is a digit, the match exists exactly when that run is
non-empty and what follows it is a single unit letter ending the text. -/
def findStringSubmatch (s : String) : Option (List Char × List Char) :=
  match s.data.takeWhile Char.isDigit, s.data.dropWhile Char.isDigit with
  | d :: ds, [u] => if isUnitLetter u then some (d :: ds, [u]) else none
  | _, _ => none

/-- The function `util.ParseDuration`.  The result is the pair
`(time.Duration, error)` with the duration in nanoseconds. -/
def ParseDuration (durationStr : String) : Int × Option DurationError :=
  match findStringSubmatch durationStr with
  | none => (0, some (.invalidFormat durationStr))
  | some (digits, unit) =>
    match Atoi digits with
    | .error err => (0, some (.invalidValue err))
    | .ok value =>
      if unit = ['h'] then (wrapInt64 (wrapInt64 value * Hour), none)
      else if unit = ['d'] then (wrapInt64 (wrapInt64 (value * 24) * Hour), none)
      else if unit = ['w'] then
        (wrapInt64 (wrapInt64 (wrapInt64 (value * 24) * 7) * Hour), none)
      else if unit = ['m'] then
        (wrapInt64 (wrapInt64 (wrapInt64 (value * 24) * 30) * Hour), none)
      else if unit = ['y'] then
        (wrapInt64 (wrapInt64 (wrapInt64 (value * 24) * 365) * Hour), none)
      else (0, some (.unsupportedUnit (String.mk unit)))

/-- Hours per unit letter, as the specification lists them. -/
def hoursPerUnit (u : Char) : Nat :=
  if u = 'h' then 1
  else if u = 'd' then 24
  else if u = 'w' then 168
  else if u = 'm' then 720
  else if u = 'y' then 8760
  else 0

/-- The shape `^\d+[hdwmy]$` read declaratively: the text is a non-empty run
of ASCII digits followed by exactly one unit letter. -/
def MatchesFormat (s : String) : Prop :=
  ∃ (ds : List Char) (u : Char),
    s.data = ds ++ [u] ∧ ds ≠ [] ∧ (∀ c ∈ ds, c.isDigit = true) ∧ isUnitLetter u = true

/-! ## `aws/dynamodb.go` -/

/-- The SDK union `types.AttributeValue`, one constructor per member type
(`AttributeValueMemberS` is `S`, and so on).  Binary payloads are lists of
byte values. -/
inductive AttributeValue where
  | B (Value : List Nat)
  | BOOL (Value : Bool)
  | BS (Value : List (List Nat))
  | L (Value : List AttributeValue)
  | M (Value : List (String × AttributeValue))
  | N (Value : String)
  | NS (Value : List String)
  | NULL (Value : Bool)
  | S (Value : String)
  | SS (Value : List String)

/-- A record, `map[string]types.AttributeValue`.  Continuation cursors have
the same Go type. -/
abbrev Item := List (String × AttributeValue)

/-- The SDK enumeration `types.ReturnConsumedCapacity`. -/
inductive ReturnConsumedCapacity where
  | INDEXES
  | TOTAL
  | NONE
  deriving DecidableEq, Repr

/-- The SDK structure `types.ConsumedCapacity`.  The program only passes it
around, so a single field stands for its content. -/
structure ConsumedCapacity where
  TableName : Option String
  deriving DecidableEq, Repr

/-- The fields of `dynamodb.QueryInput` that `QueryByCategory` sets. -/
structure QueryInput where
  TableName : String
  KeyConditionExpression : String
  ExpressionAttributeNames : List (String × String)
  ExpressionAttributeValues : List (String × AttributeValue)
  ReturnConsumedCapacity : ReturnConsumedCapacity
  ExclusiveStartKey : Option Item

/-- The fields of `dynamodb.QueryOutput` a store fills in.  `Count` and
`ScannedCount` are `int32` values. -/
structure QueryOutput where
  Items : List Item
  Count : Int
  ScannedCount : Int
  LastEvaluatedKey : Option Item
  ConsumedCapacity : Option ConsumedCapacity

/-- The structure `DynamoDBResponse`. -/
structure DynamoDBResponse where
  Items : List Item
  Count : Int
  ScannedCount : Int
  ConsumedCapacity : Option ConsumedCapacity

/-- An error returned by the store client's `Query`. -/
abbrev StoreError := String

/-- The error `QueryByCategory` builds: "failed to execute query: %v" around
the store's error. -/
inductive QueryError where
  | queryFailed (cause : StoreError)
  deriving DecidableEq, Repr

/-- The store behind `d.client.Query`: from its current state and a request
it gives a page or an error, and its next state. -/
abbrev StoreQuery (σ : Type) := σ → QueryInput → Except StoreError QueryOutput × σ

/-- What a call of `QueryByCategory` leaves behind: the returned pair
`(*DynamoDBResponse, error)`, the requests passed to `d.client.Query` in the
order they were issued, and the store's final state. -/
structure Outcome (σ : Type) where
  response : Option DynamoDBResponse
  err : Option QueryError
  requests : List QueryInput
  store : σ

/-- The request built at the top of each loop iteration (lines 43-56 and
65-72): everything is fixed by the arguments except `ExclusiveStartKey`. -/
def buildInput (tableName category startDate endDate : String)
    (lastEvaluatedKey : Option Item) : QueryInput where
  TableName := tableName
  KeyConditionExpression :=
    "#cat = :category_term AND #ts BETWEEN :start_date AND :end_date_max"
  ExpressionAttributeNames := [("#cat", "category"), ("#ts", "timestamp")]
  ExpressionAttributeValues :=
    [(":category_term", .S category), (":start_date", .S startDate),
     (":end_date_max", .S endDate)]
  ReturnConsumedCapacity := .TOTAL
  ExclusiveStartKey := lastEvaluatedKey

/-- How the pagination loop ended: with the store's error, or with the
accumulated items and running total. -/
structure LoopExit (σ : Type) where
  result : Except StoreError (List Item × Int)
  requests : List QueryInput
  store : σ

/-- The `for` loop of `QueryByCategory` (lines 63-89).  The first argument
bounds the number of iterations; `none` means the bound was reached with a
cursor still pending.  `requests` collects the inputs already sent. -/
def queryLoop {σ : Type} (query : StoreQuery σ) (mkInput : Option Item → QueryInput) :
    Nat → σ → List QueryInput → List Item → Option Item → Int → Option (LoopExit σ)
  | 0, _, _, _, _, _ => none
  | fuel + 1, store, requests, allItems, lastEvaluatedKey, totalCount =>
    let input := mkInput lastEvaluatedKey
    match query store input with
    | (.error err, store') => some ⟨.error err, requests ++ [input], store'⟩
    | (.ok result, store') =>
      let allItems := allItems ++ result.Items
      let totalCount := wrapInt32 (totalCount + result.Count)
      match result.LastEvaluatedKey with
      | none => some ⟨.ok (allItems, totalCount), requests ++ [input], store'⟩
      | some key =>
        queryLoop query mkInput fuel store' (requests ++ [input]) allItems (some key)
          totalCount

/-- The function `strings.ToLower` on valid text: every rune is mapped by
`unicode.ToLower`, which the first argument supplies. -/
def ToLower (lower : Char → Char) (s : String) : String := String.mk (s.data.map lower)

/-- Whether `substr` occurs in `s` at some position. -/
def containsChars (s substr : List Char) : Bool :=
  match s with
  | [] => substr.isEmpty
  | c :: t => substr.isPrefixOf (c :: t) || containsChars t substr

/-- The function `strings.Contains`.  Go searches bytes; on valid UTF-8 text
an occurrence of the bytes of `substr` is an occurrence of its runes. -/
def Contains (s substr : String) : Bool := containsChars s.data substr.data

/-- The test made on each record in the filter loop (lines 104-110): the
record has a `domain` attribute, it is a string member, and its lower-cased
value contains the lower-cased substring. -/
def domainMatches (lower : Char → Char) (domainSubstring : String) (item : Item) : Bool :=
  match item.lookup "domain" with
  | some (.S domainVal) => Contains (ToLower lower domainVal) (ToLower lower domainSubstring)
  | _ => false

/-- The `range` loop of lines 100-112: starting from an empty slice, each
matching record is appended in turn. -/
def filterItems (lower : Char → Char) (domainSubstring : String) (items : List Item) :
    List Item :=
  items.foldl
    (fun filteredItems item =>
      if domainMatches lower domainSubstring item then filteredItems ++ [item]
      else filteredItems)
    []

/-- The filter step of `QueryByCategory` (lines 98-117). -/
def applyDomainFilter (lower : Char → Char) (domainSubstring : String)
    (response : DynamoDBResponse) : DynamoDBResponse :=
  if domainSubstring ≠ "" ∧ response.Items.length > 0 then
    let filteredItems := filterItems lower domainSubstring response.Items
    { response with Items := filteredItems, Count := wrapInt32 filteredItems.length }
  else response

/-- The response as first built from the loop's accumulators (lines 92-96):
`ConsumedCapacity` is left at its zero value, `nil`. -/
def initResponse (allItems : List Item) (totalCount : Int) : DynamoDBResponse where
  Items := allItems
  Count := totalCount
  ScannedCount := totalCount
  ConsumedCapacity := none

/-- The method `QueryByCategory`, run against the store `query` from state
`store` with at most `fuel` page requests. -/
def QueryByCategory {σ : Type} (lower : Char → Char) (query : StoreQuery σ) (fuel : Nat)
    (store : σ) (tableName category startDate endDate domainSubstring : String) :
    Option (Outcome σ) :=
  match queryLoop query (buildInput tableName category startDate endDate) fuel store [] []
      none 0 with
  | none => none
  | some ⟨.error err, requests, store'⟩ =>
    some ⟨none, some (.queryFailed err), requests, store'⟩
  | some ⟨.ok (allItems, totalCount), requests, store'⟩ =>
    let response := initResponse allItems totalCount
    some ⟨some (applyDomainFilter lower domainSubstring response), none, requests, store'⟩

/-! ## A scripted store -/

/-- A store that answers from a fixed list of responses, one per request and
whatever the request; once the list is used up every request fails. -/
def scriptedQuery : StoreQuery (List (Except StoreError QueryOutput))
  | [], _ => (.error "no response left", [])
  | r :: rest, _ => (r, rest)

/-- A successful page with the given items, reported count and cursor. -/
def page (items : List Item) (count : Int) (cursor : Option Item) : QueryOutput where
  Items := items
  Count := count
  ScannedCount := count
  LastEvaluatedKey := cursor
  ConsumedCapacity := none

/-- A record with a string `domain` attribute and an `id`. -/
def record (id domain : String) : Item := [("id", .S id), ("domain", .S domain)]

/-! ## A store under a cancellable context -/

/-- The world behind `d.client.Query(ctx, ·)` when the caller may cancel
`ctx`: how many more requests are made before the cancellation takes place,
and the responses the store has left. -/
structure CancellableStore where
  requestsBeforeCancel : Nat
  responses : List (Except StoreError QueryOutput)

/-- A scripted store seen through the SDK client under such a context: once
the context is cancelled every request handed to the client fails with the
context's error and the store's responses stay unused. -/
def cancellableQuery : StoreQuery CancellableStore
  | ⟨0, rs⟩, _ => (.error "context canceled", ⟨0, rs⟩)
  | ⟨n + 1, []⟩, _ => (.error "no response left", ⟨n, []⟩)
  | ⟨n + 1, r :: rs⟩, _ => (r, ⟨n, rs⟩)

/-! ## `cmd/category.go`: the date range -/

/-- A calendar date as `Time.Date` gives it: proleptic Gregorian calendar,
year 0 being 1 BC. -/
structure Date where
  year : Int
  month : Int
  day : Int
  deriving DecidableEq, Repr

/-- Nanoseconds in a day. -/
def nanosPerDay : Int := 86400000000000

/-- An instant is a number of nanoseconds since 1970-01-01T00:00:00Z, of any
size; this is the number of whole days elapsed at that instant, in UTC. -/
def unixDay (t : Int) : Int := t / nanosPerDay

/-- For a day counted from 1970-01-01, the year beginning on 1 March that
holds it (year 0 begins on 0000-03-01) and the day's rank in that year, from
0.  Cycles of 400 years (146097 days), 100 years (36524 days, at most three
whole ones per 400), 4 years (1461 days) and 1 year (365 days, at most three
whole ones per 4) are cut off in turn. -/
def marchYearDay (days : Int) : Int × Int :=
  let z := days + 719468
  let n400 := z / 146097
  let r400 := z % 146097
  let n100 := r400 / 36524 - r400 / 36524 / 4
  let r100 := r400 - 36524 * n100
  let n4 := r100 / 1461
  let r4 := r100 % 1461
  let n1 := r4 / 365 - r4 / 365 / 4
  (400 * n400 + 100 * n100 + 4 * n4 + n1, r4 - 365 * n1)

/-- The date with the given rank in the year beginning on 1 March of `y`:
months are counted from March, so that January and February fall in the next
calendar year. -/
def dateOfMarchYearDay (y doy : Int) : Date :=
  let mp := (5 * doy + 2) / 153
  let d := doy - (153 * mp + 2) / 5 + 1
  let m := if mp < 10 then mp + 3 else mp - 9
  ⟨if m ≤ 2 then y + 1 else y, m, d⟩

/-- The date in UTC of a day counted from 1970-01-01, as the method
`Time.Date` computes it. -/
def civilFromDays (days : Int) : Date :=
  dateOfMarchYearDay (marchYearDay days).1 (marchYearDay days).2

/-- The decimal digit for `n % 10`. -/
def digitChar (n : Nat) : Char :=
  match n % 10 with
  | 0 => '0' | 1 => '1' | 2 => '2' | 3 => '3' | 4 => '4'
  | 5 => '5' | 6 => '6' | 7 => '7' | 8 => '8' | _ => '9'

/-- The decimal digits of `n`, most significant first, at most `fuel` of
them. -/
def decimalDigits : Nat → Nat → List Char
  | 0, _ => []
  | fuel + 1, n =>
    if n < 10 then [digitChar n] else decimalDigits fuel (n / 10) ++ [digitChar n]

/-- The function `appendInt` of package `time`: a minus sign for a negative
number, then its decimal form padded with zeros on the left up to `width`
digits.  A Go `int` has at most 19 digits. -/
def appendInt (x : Int) (width : Nat) : List Char :=
  let ds := decimalDigits 20 x.natAbs
  (if x < 0 then ['-'] else []) ++ (List.replicate (width - ds.length) '0' ++ ds)

/-- The call `t.Format("2006-01-02")` on an instant in UTC: year on four
digits at least, month and day on two. -/
def formatDate (t : Int) : String :=
  let date := civilFromDays (unixDay t)
  String.mk (appendInt date.year 4 ++ '-' :: (appendInt date.month 2 ++
    '-' :: appendInt date.day 2))

/-- The method `Time.Add` on instants far from the limits of `Time`. -/
def timeAdd (t : Int) (d : Int) : Int := t + d

/-- The date range computed by `runCategoryCmd` (lines 39-48) from the value
`now` of `time.Now().UTC()` and the age flag: the error of `ParseDuration` if
there is one, otherwise `startDate` and `endDate`. -/
def dateRange (now : Int) (ageStr : String) : Except DurationError (String × String) :=
  match ParseDuration ageStr with
  | (_, some err) => .error err
  | (duration, none) =>
    let startDate := formatDate (timeAdd now (wrapInt64 (-duration)))
    let endDate := formatDate now ++ "~"
    .ok (startDate, endDate)

/-- Order of two strings as sequences of bytes, the order of the store's
range conditions on string keys; on valid UTF-8 it is the order of the
sequences of code points. -/
def lexLe : List Char → List Char → Bool
  | [], _ => true
  | _ :: _, [] => false
  | a :: as, b :: bs =>
    if a.toNat < b.toNat then true
    else if b.toNat < a.toNat then false
    else lexLe as bs

/-- The characters a time component may be made of: digits, `T`, `Z`, colon,
hyphen, dot, plus and space. -/
def isTimeChar (c : Char) : Bool :=
  c.isDigit || c == 'T' || c == 'Z' || c == ':' || c == '-' || c == '.' || c == '+' ||
    c == ' '

/-- The ten characters of a date whose year has at most four digits. -/
def tenChars (y m d : Nat) : List Char :=
  [digitChar (y / 1000), digitChar (y / 100), digitChar (y / 10), digitChar y, '-',
   digitChar (m / 10), digitChar m, '-', digitChar (d / 10), digitChar d]

end CelestialCobra

namespace CelestialCobra

/-! ## Machine integers: lemmas -/

theorem wrapInt64_of_range {x : Int} (h₁ : -(2 ^ 63) ≤ x) (h₂ : x < 2 ^ 63) :
    wrapInt64 x = x := by
  unfold wrapInt64
  rw [Int.emod_eq_of_lt (by omega) (by omega)]
  omega

theorem wrapInt32_of_range {x : Int} (h₁ : -(2 ^ 31) ≤ x) (h₂ : x < 2 ^ 31) :
    wrapInt32 x = x := by
  unfold wrapInt32
  rw [Int.emod_eq_of_lt (by omega) (by omega)]
  omega

theorem wrapInt32_add_wrapInt32 (x y : Int) :
    wrapInt32 (wrapInt32 x + y) = wrapInt32 (x + y) := by
  unfold wrapInt32
  omega

/-! ## The format and the integer conversion -/

theorem isDigit_false_of_isUnitLetter {u : Char} (hu : isUnitLetter u = true) :
    u.isDigit = false := by
  simp only [isUnitLetter, Bool.or_eq_true, beq_iff_eq] at hu
  rcases hu with (((rfl | rfl) | rfl) | rfl) | rfl <;> decide

/-- On a text made of digits and one unit letter the two capture groups are
the digits and the letter. -/
theorem findStringSubmatch_append {ds : List Char} {u : Char} (hne : ds ≠ [])
    (hd : ∀ c ∈ ds, c.isDigit = true) (hu : isUnitLetter u = true) :
    findStringSubmatch (String.mk (ds ++ [u])) = some (ds, [u]) := by
  have hnd : u.isDigit = false := isDigit_false_of_isUnitLetter hu
  have ht : (ds ++ [u]).takeWhile Char.isDigit = ds := by
    rw [List.takeWhile_append_of_pos hd]
    simp [List.takeWhile, hnd]
  have hdr : (ds ++ [u]).dropWhile Char.isDigit = [u] := by
    rw [List.dropWhile_append_of_pos hd]
    simp [List.dropWhile, hnd]
  unfold findStringSubmatch
  simp only [ht, hdr]
  cases ds with
  | nil => exact absurd rfl hne
  | cons d t => simp [hu]

/-- A successful submatch yields a text of the declared shape. -/
theorem matchesFormat_of_findStringSubmatch {s : String} {r : List Char × List Char}
    (h : findStringSubmatch s = some r) : MatchesFormat s := by
  unfold findStringSubmatch at h
  have hsplit := List.takeWhile_append_dropWhile Char.isDigit s.data
  have hall : ∀ c ∈ s.data.takeWhile Char.isDigit, c.isDigit = true :=
    fun c hc => List.mem_takeWhile_imp hc
  split at h
  · next d ds u htk hdr =>
    by_cases hu : isUnitLetter u = true
    · refine ⟨d :: ds, u, ?_, by simp, ?_, hu⟩
      · rw [← hsplit, htk, hdr]
      · rw [← htk]; exact hall
    · simp [hu] at h
  · simp at h

/-- The submatch succeeds exactly on the texts of the declared shape. -/
theorem findStringSubmatch_isSome_iff (s : String) :
    (findStringSubmatch s).isSome = true ↔ MatchesFormat s := by
  constructor
  · intro h
    obtain ⟨r, hr⟩ := Option.isSome_iff_exists.mp h
    exact matchesFormat_of_findStringSubmatch hr
  · rintro ⟨ds, u, hs, hne, hd, hu⟩
    have : s = String.mk (ds ++ [u]) := String.ext hs
    rw [this, findStringSubmatch_append hne hd hu]
    rfl

theorem findStringSubmatch_eq_none {s : String} (h : ¬ MatchesFormat s) :
    findStringSubmatch s = none := by
  cases hf : findStringSubmatch s with
  | none => rfl
  | some r => exact absurd (matchesFormat_of_findStringSubmatch hf) h

/-- On a non-empty string of digits `Atoi` gives its decimal value, or a range
error when the value exceeds the largest `int`. -/
theorem Atoi_digits {ds : List Char} (hne : ds ≠ []) (hd : ∀ c ∈ ds, c.isDigit = true) :
    Atoi ds =
      if (decimalValue ds : Int) ≤ maxInt64 then .ok (decimalValue ds) else .error .rangeErr := by
  cases ds with
  | nil => exact absurd rfl hne
  | cons d t =>
    have hdd : d.isDigit = true := hd d (by simp)
    have h1 : d ≠ '-' := by rintro rfl; exact absurd hdd (by decide)
    have h2 : d ≠ '+' := by rintro rfl; exact absurd hdd (by decide)
    have hall : (d :: t).all Char.isDigit = true := by
      rw [List.all_eq_true]; exact hd
    unfold Atoi
    split
    · next neg body heq =>
      split at heq
      · next t' hs => simp only [List.cons.injEq] at hs; exact absurd hs.1 h1
      · next t' hs => simp only [List.cons.injEq] at hs; exact absurd hs.1 h2
      · simp only [Prod.mk.injEq] at heq
        obtain ⟨rfl, rfl⟩ := heq
        simp [hall]

theorem hoursPerUnit_le {u : Char} : hoursPerUnit u ≤ 8760 := by
  unfold hoursPerUnit
  split_ifs <;> omega

/-- Within the stated bound the parse is exact: no conversion fails and no
product wraps around. -/
theorem ParseDuration_of_bound {ds : List Char} {u : Char} (hne : ds ≠ [])
    (hd : ∀ c ∈ ds, c.isDigit = true) (hu : isUnitLetter u = true)
    (hb : decimalValue ds * hoursPerUnit u ≤ 2562047) :
    ParseDuration (String.mk (ds ++ [u])) =
      (((decimalValue ds * hoursPerUnit u : Nat) : Int) * Hour, none) := by
  have hu' := hu
  simp only [isUnitLetter, Bool.or_eq_true, beq_iff_eq] at hu'
  unfold ParseDuration
  rw [findStringSubmatch_append hne hd hu]
  simp only []
  have hv : (decimalValue ds : Int) ≤ maxInt64 := by
    have : decimalValue ds ≤ 2562047 := by
      rcases hu' with (((rfl | rfl) | rfl) | rfl) | rfl <;>
        simp [hoursPerUnit] at hb <;> omega
    unfold maxInt64; omega
  rw [Atoi_digits hne hd, if_pos hv]
  simp only []
  generalize decimalValue ds = n at hb hv ⊢
  rcases hu' with (((rfl | rfl) | rfl) | rfl) | rfl <;>
    simp [hoursPerUnit, Hour] at hb ⊢
  · rw [wrapInt64_of_range (x := (n : Int)) (by omega) (by omega),
      wrapInt64_of_range (by omega) (by omega)]
  · rw [wrapInt64_of_range (x := (n : Int) * 24) (by omega) (by omega),
      wrapInt64_of_range (by omega) (by omega)]
  · rw [wrapInt64_of_range (x := (n : Int) * 24) (by omega) (by omega),
      wrapInt64_of_range (x := (n : Int) * 24 * 7) (by omega) (by omega),
      wrapInt64_of_range (by omega) (by omega)]
    omega
  · rw [wrapInt64_of_range (x := (n : Int) * 24) (by omega) (by omega),
      wrapInt64_of_range (x := (n : Int) * 24 * 30) (by omega) (by omega),
      wrapInt64_of_range (by omega) (by omega)]
    omega
  · rw [wrapInt64_of_range (x := (n : Int) * 24) (by omega) (by omega),
      wrapInt64_of_range (x := (n : Int) * 24 * 365) (by omega) (by omega),
      wrapInt64_of_range (by omega) (by omega)]
    omega

/-! ## Duration parsing: the claims -/

/-- C1, as amended: for every token made of a non-empty string of decimal
digits denoting a positive integer `n` and of a unit letter among h, d, w, m,
y, provided `n` times the unit's hours is at most 2,562,047, `ParseDuration`
returns no error and a duration of exactly `n * 1`, `n * 24`, `n * 168`,
`n * 720` or `n * 8760` hours. -/
theorem parseDuration_hours (ds : List Char) (u : Char) (hne : ds ≠ [])
    (hd : ∀ c ∈ ds, c.isDigit = true) (hu : isUnitLetter u = true)
    (_hpos : 0 < decimalValue ds) (hb : decimalValue ds * hoursPerUnit u ≤ 2562047) :
    ParseDuration (String.mk (ds ++ [u])) =
      (((decimalValue ds * hoursPerUnit u : Nat) : Int) * Hour, none) :=
  ParseDuration_of_bound hne hd hu hb

/-- Witness for C1 as amended: the token "007d" is seven days, 168 hours. -/
theorem parseDuration_hours_witness :
    ParseDuration "007d" = (168 * Hour, none) :=
  parseDuration_hours ['0', '0', '7'] 'd' (by decide) (by decide) (by decide) (by decide)
    (by decide)

/-- C1 fails as stated: the token "2562048h" is accepted without error, but
its product with `time.Hour` exceeds 64 bits, and the duration returned is
negative instead of 2,562,048 hours. -/
theorem parseDuration_hours_wraps :
    ParseDuration "2562048h" = (-9223371273709551616, none) ∧
      (ParseDuration "2562048h").1 ≠ 2562048 * Hour := by
  decide

/-- C2: every text that is not a non-empty run of digits followed by one unit
letter is refused with the invalid-format error and a zero duration. -/
theorem parseDuration_invalid_format (s : String) (h : ¬ MatchesFormat s) :
    ParseDuration s = (0, some (.invalidFormat s)) := by
  unfold ParseDuration
  rw [findStringSubmatch_eq_none h]

/-- Witness for C2: a trailing newline is not part of the format. -/
theorem parseDuration_invalid_format_witness :
    ParseDuration "7d\n" = (0, some (.invalidFormat "7d\n")) :=
  parseDuration_invalid_format "7d\n"
    (fun h => absurd ((findStringSubmatch_isSome_iff "7d\n").mpr h) (by decide))

/-- The kinds of malformed text the specification lists are all refused with
the invalid-format error: empty text, missing unit, non-numeric magnitude,
unsupported letter, surrounding whitespace. -/
theorem parseDuration_rejects_listed :
    ParseDuration "" = (0, some (.invalidFormat "")) ∧
    ParseDuration "7" = (0, some (.invalidFormat "7")) ∧
    ParseDuration "xd" = (0, some (.invalidFormat "xd")) ∧
    ParseDuration "7s" = (0, some (.invalidFormat "7s")) ∧
    ParseDuration " 7d" = (0, some (.invalidFormat " 7d")) ∧
    ParseDuration "7d " = (0, some (.invalidFormat "7d ")) := by
  decide

/-! ## The pagination loop against a scripted store -/

/-- Sum of the counts the pages report. -/
theorem sum_counts_append (ps : List QueryOutput) (q : QueryOutput) :
    ((ps ++ [q]).map (·.Count)).sum = (ps.map (·.Count)).sum + q.Count := by
  simp

/-- The loop over a script whose first pages all carry a cursor and whose next
page carries none: every page is consumed, nothing after it is. -/
theorem queryLoop_scripted_pages (mkInput : Option Item → QueryInput)
    (ps : List QueryOutput) (last : QueryOutput)
    (rest : List (Except StoreError QueryOutput))
    (hps : ∀ p ∈ ps, p.LastEvaluatedKey ≠ none) (hlast : last.LastEvaluatedKey = none) :
    ∀ (fuel : Nat) (requests : List QueryInput) (allItems : List Item)
      (cursor : Option Item) (totalCount : Int), ps.length < fuel →
      queryLoop scriptedQuery mkInput fuel (ps.map .ok ++ .ok last :: rest) requests
          allItems cursor totalCount =
        some ⟨.ok (allItems ++ ((ps ++ [last]).map (·.Items)).flatten,
                wrapInt32 (totalCount + ((ps ++ [last]).map (·.Count)).sum)),
              requests ++ (cursor :: ps.map (·.LastEvaluatedKey)).map mkInput, rest⟩ := by
  induction ps with
  | nil =>
    intro fuel requests allItems cursor totalCount hf
    obtain ⟨fuel, rfl⟩ : ∃ k, fuel = k + 1 := ⟨fuel - 1, by simp at hf; omega⟩
    simp [queryLoop, scriptedQuery, hlast]
  | cons p ps ih =>
    intro fuel requests allItems cursor totalCount hf
    obtain ⟨fuel, rfl⟩ : ∃ k, fuel = k + 1 := ⟨fuel - 1, by simp at hf; omega⟩
    have hp : p.LastEvaluatedKey ≠ none := hps p (by simp)
    obtain ⟨key, hkey⟩ := Option.ne_none_iff_exists'.mp hp
    have hps' : ∀ q ∈ ps, q.LastEvaluatedKey ≠ none := fun q hq => hps q (by simp [hq])
    have hf' : ps.length < fuel := by simp at hf; omega
    simp only [List.map_cons, List.cons_append, queryLoop, scriptedQuery, hkey]
    rw [ih hps' fuel _ _ _ _ hf', wrapInt32_add_wrapInt32]
    simp [List.append_assoc, add_assoc]

/-- The loop over a script whose first pages all carry a cursor and whose next
response is an error: the loop stops at the error. -/
theorem queryLoop_scripted_error (mkInput : Option Item → QueryInput)
    (ps : List QueryOutput) (e : StoreError)
    (rest : List (Except StoreError QueryOutput))
    (hps : ∀ p ∈ ps, p.LastEvaluatedKey ≠ none) :
    ∀ (fuel : Nat) (requests : List QueryInput) (allItems : List Item)
      (cursor : Option Item) (totalCount : Int), ps.length < fuel →
      queryLoop scriptedQuery mkInput fuel (ps.map .ok ++ .error e :: rest) requests
          allItems cursor totalCount =
        some ⟨.error e,
              requests ++ (cursor :: ps.map (·.LastEvaluatedKey)).map mkInput, rest⟩ := by
  induction ps with
  | nil =>
    intro fuel requests allItems cursor totalCount hf
    obtain ⟨fuel, rfl⟩ : ∃ k, fuel = k + 1 := ⟨fuel - 1, by simp at hf; omega⟩
    simp [queryLoop, scriptedQuery]
  | cons p ps ih =>
    intro fuel requests allItems cursor totalCount hf
    obtain ⟨fuel, rfl⟩ : ∃ k, fuel = k + 1 := ⟨fuel - 1, by simp at hf; omega⟩
    have hp : p.LastEvaluatedKey ≠ none := hps p (by simp)
    obtain ⟨key, hkey⟩ := Option.ne_none_iff_exists'.mp hp
    have hps' : ∀ q ∈ ps, q.LastEvaluatedKey ≠ none := fun q hq => hps q (by simp [hq])
    have hf' : ps.length < fuel := by simp at hf; omega
    simp only [List.map_cons, List.cons_append, queryLoop, scriptedQuery, hkey]
    rw [ih hps' fuel _ _ _ _ hf']
    simp [List.append_assoc]

/-- With an empty domain substring the filter step returns its argument. -/
theorem applyDomainFilter_empty (lower : Char → Char) (response : DynamoDBResponse) :
    applyDomainFilter lower "" response = response := by
  simp [applyDomainFilter]

/-! ## Pagination: the claims -/

/-- C3, as amended: for every run of successful pages of which all but the
last carry a continuation cursor and the last carries none, `QueryByCategory`
with an empty domain substring returns no error, Items equal to the
concatenation of the pages' items in page order, and Count (and ScannedCount)
equal to the 32-bit sum, with wrap-around, of the pages' counts; Count is the
sum itself whenever the sum lies in the `int32` range. -/
theorem queryByCategory_pagination_complete (lower : Char → Char)
    (ps : List QueryOutput) (last : QueryOutput)
    (rest : List (Except StoreError QueryOutput)) (fuel : Nat)
    (tableName category startDate endDate : String)
    (hps : ∀ p ∈ ps, p.LastEvaluatedKey ≠ none) (hlast : last.LastEvaluatedKey = none)
    (hf : ps.length < fuel) :
    (QueryByCategory lower scriptedQuery fuel (ps.map .ok ++ .ok last :: rest) tableName
        category startDate endDate "").map (fun o => (o.response, o.err)) =
      some (some { Items := ((ps ++ [last]).map (·.Items)).flatten,
                   Count := wrapInt32 ((ps ++ [last]).map (·.Count)).sum,
                   ScannedCount := wrapInt32 ((ps ++ [last]).map (·.Count)).sum,
                   ConsumedCapacity := none }, none) ∧
      (-(2 ^ 31) ≤ ((ps ++ [last]).map (·.Count)).sum →
        ((ps ++ [last]).map (·.Count)).sum < 2 ^ 31 →
        (QueryByCategory lower scriptedQuery fuel (ps.map .ok ++ .ok last :: rest) tableName
          category startDate endDate "").map (fun o => o.response.map (·.Count)) =
          some (some ((ps ++ [last]).map (·.Count)).sum)) := by
  unfold QueryByCategory
  rw [queryLoop_scripted_pages _ ps last rest hps hlast fuel _ _ _ _ hf]
  simp only [Option.map_some', applyDomainFilter_empty, initResponse, List.nil_append,
    zero_add, true_and]
  intro hlo hhi
  rw [wrapInt32_of_range hlo hhi]

/-- Witness for C3 as amended, on the specification's example: pages `[A, B]`,
`[C]` and `[]` give the items A, B, C and the count 3. -/
theorem queryByCategory_pagination_complete_witness :
    (QueryByCategory Char.toLower scriptedQuery 3
        [.ok (page [record "A" "a.example", record "B" "b.example"] 2 (some [("id", .S "B")])),
         .ok (page [record "C" "c.example"] 1 (some [("id", .S "C")])),
         .ok (page [] 0 none)]
        "dreamydungbeetle" "news" "2026-11-02" "2026-11-04~" "").map
        (fun o => (o.response, o.err)) =
      some (some { Items := [record "A" "a.example", record "B" "b.example",
                             record "C" "c.example"],
                   Count := 3, ScannedCount := 3, ConsumedCapacity := none }, none) ∧
    (QueryByCategory Char.toLower scriptedQuery 3
        [.ok (page [record "A" "a.example", record "B" "b.example"] 2 (some [("id", .S "B")])),
         .ok (page [record "C" "c.example"] 1 (some [("id", .S "C")])),
         .ok (page [] 0 none)]
        "dreamydungbeetle" "news" "2026-11-02" "2026-11-04~" "").map
        (fun o => o.response.map (·.Count)) = some (some 3) :=
  have h := queryByCategory_pagination_complete Char.toLower
    [page [record "A" "a.example", record "B" "b.example"] 2 (some [("id", .S "B")]),
     page [record "C" "c.example"] 1 (some [("id", .S "C")])]
    (page [] 0 none) [] 3 "dreamydungbeetle" "news" "2026-11-02" "2026-11-04~"
    (by simp [page]) rfl (by decide)
  ⟨h.1, h.2 (by decide) (by decide)⟩

/-- C3 fails as stated: two pages reporting the counts 2147483647 and 1 give a
32-bit running total that wraps, so Count is -2147483648 and not the sum
2147483648. -/
theorem queryByCategory_count_wraps :
    (QueryByCategory Char.toLower scriptedQuery 2
        [.ok (page [record "A" "a.example"] 2147483647 (some [("id", .S "A")])),
         .ok (page [record "B" "b.example"] 1 none)]
        "dreamydungbeetle" "news" "2026-11-02" "2026-11-04~" "").map
        (fun o => o.response.map (·.Count)) = some (some (-2147483648)) ∧
      (-2147483648 : Int) ≠ 2147483647 + 1 := by
  constructor
  · rfl
  · decide

/-- C4, as amended: against a store whose first `k` responses carry a cursor
that is not nil (empty or not) and whose next response carries a nil cursor,
`QueryByCategory` issues exactly `k + 1` requests and leaves the store's later
responses untouched. -/
theorem queryByCategory_stops_at_nil_cursor (lower : Char → Char)
    (ps : List QueryOutput) (last : QueryOutput)
    (rest : List (Except StoreError QueryOutput)) (fuel : Nat)
    (tableName category startDate endDate domainSubstring : String)
    (hps : ∀ p ∈ ps, p.LastEvaluatedKey ≠ none) (hlast : last.LastEvaluatedKey = none)
    (hf : ps.length < fuel) :
    (QueryByCategory lower scriptedQuery fuel (ps.map .ok ++ .ok last :: rest) tableName
        category startDate endDate domainSubstring).map
        (fun o => (o.requests.length, o.store)) =
      some (ps.length + 1, rest) := by
  unfold QueryByCategory
  rw [queryLoop_scripted_pages _ ps last rest hps hlast fuel _ _ _ _ hf]
  simp

/-- Witness for C4 as amended: two pages with a cursor, the second of them
empty, then a page without: three requests, the fourth response unused. -/
theorem queryByCategory_stops_at_nil_cursor_witness :
    (QueryByCategory Char.toLower scriptedQuery 10
        [.ok (page [record "A" "a.example"] 1 (some [("id", .S "A")])),
         .ok (page [record "B" "b.example"] 1 (some [])),
         .ok (page [] 0 none),
         .ok (page [record "Z" "z.example"] 1 none)]
        "dreamydungbeetle" "news" "2026-11-02" "2026-11-04~" "b").map
        (fun o => (o.requests.length, o.store)) =
      some (3, [.ok (page [record "Z" "z.example"] 1 none)]) :=
  queryByCategory_stops_at_nil_cursor Char.toLower
    [page [record "A" "a.example"] 1 (some [("id", .S "A")]),
     page [record "B" "b.example"] 1 (some [])]
    (page [] 0 none) [.ok (page [record "Z" "z.example"] 1 none)] 10
    "dreamydungbeetle" "news" "2026-11-02" "2026-11-04~" "b"
    (by simp [page]) rfl (by decide)

/-- C4 fails as stated: the first response carries an empty cursor (a map
that is not nil and has no entry), yet the loop does not stop there and a
second request is issued. -/
theorem queryByCategory_empty_cursor_continues :
    (QueryByCategory Char.toLower scriptedQuery 10
        [.ok (page [record "A" "a.example"] 1 (some [])),
         .ok (page [record "B" "b.example"] 1 none)]
        "dreamydungbeetle" "news" "2026-11-02" "2026-11-04~" "").map
        (fun o => (o.requests.length, o.requests.map (·.ExclusiveStartKey.isSome))) =
      some (2, [false, true]) := by
  rfl

/-- C5: when the first `k` page requests succeed with a cursor and the next
one fails, `QueryByCategory` returns a nil response and the query-failed error
built from the store's error, after exactly `k + 1` requests: nothing gathered
so far is returned and the store is not asked again. -/
theorem queryByCategory_aborts_on_error (lower : Char → Char)
    (ps : List QueryOutput) (e : StoreError)
    (rest : List (Except StoreError QueryOutput)) (fuel : Nat)
    (tableName category startDate endDate domainSubstring : String)
    (hps : ∀ p ∈ ps, p.LastEvaluatedKey ≠ none) (hf : ps.length < fuel) :
    (QueryByCategory lower scriptedQuery fuel (ps.map .ok ++ .error e :: rest) tableName
        category startDate endDate domainSubstring).map
        (fun o => (o.response, o.err, o.requests.length, o.store)) =
      some (none, some (.queryFailed e), ps.length + 1, rest) := by
  unfold QueryByCategory
  rw [queryLoop_scripted_error _ ps e rest hps fuel _ _ _ _ hf]
  simp

/-- Witness for C5: one page of two records, then a failure; a later page
that would have succeeded is never requested. -/
theorem queryByCategory_aborts_on_error_witness :
    (QueryByCategory Char.toLower scriptedQuery 10
        [.ok (page [record "A" "a.example", record "B" "b.example"] 2 (some [("id", .S "B")])),
         .error "throttled",
         .ok (page [record "C" "c.example"] 1 none)]
        "dreamydungbeetle" "news" "2026-11-02" "2026-11-04~" "").map
        (fun o => (o.response, o.err, o.requests.length, o.store)) =
      some (none, some (.queryFailed "throttled"), 2,
        [.ok (page [record "C" "c.example"] 1 none)]) :=
  queryByCategory_aborts_on_error Char.toLower
    [page [record "A" "a.example", record "B" "b.example"] 2 (some [("id", .S "B")])]
    "throttled" [.ok (page [record "C" "c.example"] 1 none)] 10
    "dreamydungbeetle" "news" "2026-11-02" "2026-11-04~" "" (by simp [page]) (by decide)

/-! ## The filter step -/

/-- The character test of `strings.Contains` finds exactly the contiguous
occurrences. -/
theorem containsChars_iff (s substr : List Char) :
    containsChars s substr = true ↔ substr <:+: s := by
  induction s with
  | nil =>
    cases substr <;> simp [containsChars]
  | cons c t ih =>
    rw [containsChars, Bool.or_eq_true, ih, List.isPrefixOf_iff_prefix, List.infix_cons_iff]

/-- The filter loop keeps, in order, the records that pass the test. -/
theorem filterItems_eq_filter (lower : Char → Char) (domainSubstring : String)
    (items : List Item) :
    filterItems lower domainSubstring items =
      items.filter (domainMatches lower domainSubstring) := by
  have key : ∀ (items acc : List Item),
      items.foldl
          (fun filteredItems item =>
            if domainMatches lower domainSubstring item then filteredItems ++ [item]
            else filteredItems)
          acc =
        acc ++ items.filter (domainMatches lower domainSubstring) := by
    intro items
    induction items with
    | nil => intro acc; simp
    | cons x xs ih =>
      intro acc
      by_cases hx : domainMatches lower domainSubstring x = true
      · simp [List.foldl_cons, ih, hx]
      · simp [List.foldl_cons, ih, hx]
  simpa [filterItems] using key items []

/-- The test on a record, read declaratively. -/
theorem domainMatches_iff (lower : Char → Char) (domainSubstring : String) (item : Item) :
    domainMatches lower domainSubstring item = true ↔
      ∃ v : String, item.lookup "domain" = some (.S v) ∧
        (ToLower lower domainSubstring).data <:+: (ToLower lower v).data := by
  unfold domainMatches
  split
  · next domainVal heq =>
    rw [Contains, containsChars_iff]
    constructor
    · intro h; exact ⟨domainVal, heq, h⟩
    · rintro ⟨v, hv, h⟩
      rw [heq] at hv
      simp only [Option.some.injEq, AttributeValue.S.injEq] at hv
      subst hv
      exact h
  · next hno =>
    constructor
    · intro h; exact absurd h (by simp)
    · rintro ⟨v, hv, _⟩
      exact absurd hv (hno v)

/-- The filter step when its guard holds. -/
theorem applyDomainFilter_of_guard (lower : Char → Char) (domainSubstring : String)
    (response : DynamoDBResponse) (hsub : domainSubstring ≠ "")
    (hne : response.Items ≠ []) :
    applyDomainFilter lower domainSubstring response =
      { response with
        Items := response.Items.filter (domainMatches lower domainSubstring),
        Count :=
          wrapInt32 (response.Items.filter (domainMatches lower domainSubstring)).length } := by
  have hlen : response.Items.length > 0 := List.length_pos.mpr hne
  simp [applyDomainFilter, hsub, hlen, filterItems_eq_filter]

/-- The filter step when its guard fails. -/
theorem applyDomainFilter_of_not_guard (lower : Char → Char) (domainSubstring : String)
    (response : DynamoDBResponse) (h : domainSubstring = "" ∨ response.Items = []) :
    applyDomainFilter lower domainSubstring response = response := by
  rcases h with h | h
  · simp [applyDomainFilter, h]
  · simp [applyDomainFilter, h]

/-! ## The filter step: the claims -/

/-- C6: with a non-empty domain substring and a non-empty accumulated list, a
record is among the filtered Items exactly when it is an accumulated record
whose `domain` attribute exists, is a string member, and has a lower-cased
value containing the lower-cased substring; a record without `domain`, or with
a `domain` of another type, is left out. -/
theorem filter_keeps_exactly_matching (lower : Char → Char) (domainSubstring : String)
    (response : DynamoDBResponse) (hsub : domainSubstring ≠ "")
    (hne : response.Items ≠ []) (item : Item) :
    (item ∈ (applyDomainFilter lower domainSubstring response).Items ↔
      item ∈ response.Items ∧
        ∃ v : String, item.lookup "domain" = some (.S v) ∧
          (ToLower lower domainSubstring).data <:+: (ToLower lower v).data) ∧
    (item.lookup "domain" = none →
      item ∉ (applyDomainFilter lower domainSubstring response).Items) ∧
    (∀ a, item.lookup "domain" = some a → (∀ v, a ≠ .S v) →
      item ∉ (applyDomainFilter lower domainSubstring response).Items) := by
  rw [applyDomainFilter_of_guard lower domainSubstring response hsub hne]
  simp only [List.mem_filter, domainMatches_iff]
  refine ⟨trivial, ?_, ?_⟩
  · rintro hnone ⟨_, v, hv, _⟩
    rw [hnone] at hv
    exact absurd hv (by simp)
  · rintro a ha hns ⟨_, v, hv, _⟩
    rw [ha] at hv
    simp only [Option.some.injEq] at hv
    exact hns v hv

/-- Witness for C6: of three accumulated records, one has a matching string
domain (in another letter case), one has no `domain`, one has a numeric
`domain`; the statement holds of the first. -/
theorem filter_keeps_exactly_matching_witness :
    (record "1" "www.CNN.com" ∈
        (applyDomainFilter Char.toLower "cnn"
          (initResponse [record "1" "www.CNN.com", [("id", .S "2")], [("domain", .N "5")]]
            3)).Items ↔
      record "1" "www.CNN.com" ∈
          (initResponse [record "1" "www.CNN.com", [("id", .S "2")], [("domain", .N "5")]]
            3).Items ∧
        ∃ v : String, (record "1" "www.CNN.com").lookup "domain" = some (.S v) ∧
          (ToLower Char.toLower "cnn").data <:+: (ToLower Char.toLower v).data) :=
  (filter_keeps_exactly_matching Char.toLower "cnn"
    (initResponse [record "1" "www.CNN.com", [("id", .S "2")], [("domain", .N "5")]] 3)
    (by decide) (by simp [initResponse]) (record "1" "www.CNN.com")).1

/-- The filter step on the three records above keeps the first only. -/
theorem filter_example :
    (applyDomainFilter Char.toLower "cnn"
      (initResponse [record "1" "www.CNN.com", [("id", .S "2")], [("domain", .N "5")]]
        3)) =
      { Items := [record "1" "www.CNN.com"], Count := 1, ScannedCount := 3,
        ConsumedCapacity := none } := by
  rfl

/-- C7, as amended: on the response built from the accumulators the filter
step never changes ScannedCount, which stays the pre-filter total.  When the
step's guard holds (non-empty substring, non-empty accumulated items) Count is
the length of the retained Items converted to `int32`, hence that length
whenever it is below 2^31; when the guard fails Count stays the pre-filter
total. -/
theorem filter_count_and_scannedCount (lower : Char → Char) (domainSubstring : String)
    (allItems : List Item) (totalCount : Int) :
    (applyDomainFilter lower domainSubstring
        (initResponse allItems totalCount)).ScannedCount = totalCount ∧
      (domainSubstring ≠ "" → allItems ≠ [] →
        (applyDomainFilter lower domainSubstring (initResponse allItems totalCount)).Count =
            wrapInt32 (applyDomainFilter lower domainSubstring
              (initResponse allItems totalCount)).Items.length ∧
          ((applyDomainFilter lower domainSubstring
              (initResponse allItems totalCount)).Items.length < 2 ^ 31 →
            (applyDomainFilter lower domainSubstring (initResponse allItems totalCount)).Count =
              (applyDomainFilter lower domainSubstring
                (initResponse allItems totalCount)).Items.length)) ∧
      (domainSubstring = "" ∨ allItems = [] →
        (applyDomainFilter lower domainSubstring (initResponse allItems totalCount)).Count =
          totalCount) := by
  refine ⟨?_, ?_, ?_⟩
  · by_cases hg : domainSubstring = "" ∨ (initResponse allItems totalCount).Items = []
    · rw [applyDomainFilter_of_not_guard lower domainSubstring _ hg]
      rfl
    · have h1 : domainSubstring ≠ "" := fun h => hg (Or.inl h)
      have h2 : (initResponse allItems totalCount).Items ≠ [] := fun h => hg (Or.inr h)
      rw [applyDomainFilter_of_guard lower domainSubstring _ h1 h2]
      rfl
  · intro hsub hne
    have hne' : (initResponse allItems totalCount).Items ≠ [] := hne
    rw [applyDomainFilter_of_guard lower domainSubstring _ hsub hne']
    refine ⟨rfl, ?_⟩
    intro hlen
    simp only [initResponse] at hlen ⊢
    exact wrapInt32_of_range (by omega) (by omega)
  · intro hg
    have hg' : domainSubstring = "" ∨ (initResponse allItems totalCount).Items = [] := hg
    rw [applyDomainFilter_of_not_guard lower domainSubstring _ hg']
    rfl

/-- Witness for C7 as amended: three accumulated records with a reported
total of 5, one retained. -/
theorem filter_count_and_scannedCount_witness :
    (applyDomainFilter Char.toLower "cnn"
        (initResponse [record "1" "www.CNN.com", [("id", .S "2")], [("domain", .N "5")]]
          5)).ScannedCount = 5 ∧
      (applyDomainFilter Char.toLower "cnn"
        (initResponse [record "1" "www.CNN.com", [("id", .S "2")], [("domain", .N "5")]]
          5)).Count =
        (applyDomainFilter Char.toLower "cnn"
          (initResponse [record "1" "www.CNN.com", [("id", .S "2")], [("domain", .N "5")]]
            5)).Items.length :=
  have h := filter_count_and_scannedCount Char.toLower "cnn"
    [record "1" "www.CNN.com", [("id", .S "2")], [("domain", .N "5")]] 5
  ⟨h.1, (h.2.1 (by decide) (by simp)).2 (by decide)⟩

/-- C7 fails as stated.  With 2^31 accumulated records that all match, the
2^31 retained Items have a length that does not fit `int32`, and Count is
-2147483648.  And when no record was accumulated while the pages reported a
total of 7, the step leaves Count at 7 for an empty Items. -/
theorem filter_count_wraps :
    ((applyDomainFilter Char.toLower "cnn"
        (initResponse (List.replicate 2147483648 (record "1" "www.cnn.com"))
          (-2147483648))).Items.length = 2147483648 ∧
      (applyDomainFilter Char.toLower "cnn"
        (initResponse (List.replicate 2147483648 (record "1" "www.cnn.com"))
          (-2147483648))).Count = -2147483648) ∧
    ((applyDomainFilter Char.toLower "cnn" (initResponse [] 7)).Items.length = 0 ∧
      (applyDomainFilter Char.toLower "cnn" (initResponse [] 7)).Count = 7) := by
  have hm : domainMatches Char.toLower "cnn" (record "1" "www.cnn.com") = true := by decide
  have hne : (initResponse (List.replicate 2147483648 (record "1" "www.cnn.com"))
      (-2147483648)).Items ≠ [] := by
    intro h
    have hl := congrArg List.length h
    simp only [initResponse, List.length_replicate, List.length_nil] at hl
    omega
  refine ⟨?_, rfl, rfl⟩
  rw [applyDomainFilter_of_guard Char.toLower "cnn" _ (by decide) hne]
  simp only [initResponse, List.filter_replicate_of_pos hm, List.length_replicate]
  exact ⟨trivial, by decide⟩

/-- C8: the filter step returns its argument unchanged, Items, Count and
ScannedCount included, when the domain substring is empty or there is no
accumulated item. -/
theorem filter_noop (lower : Char → Char) (domainSubstring : String)
    (response : DynamoDBResponse) (h : domainSubstring = "" ∨ response.Items = []) :
    applyDomainFilter lower domainSubstring response = response :=
  applyDomainFilter_of_not_guard lower domainSubstring response h

/-- Witness for C8: an empty substring leaves three records and the counts as
they were. -/
theorem filter_noop_witness :
    applyDomainFilter Char.toLower ""
        (initResponse [record "1" "www.CNN.com", [("id", .S "2")], [("domain", .N "5")]] 3) =
      initResponse [record "1" "www.CNN.com", [("id", .S "2")], [("domain", .N "5")]] 3 :=
  filter_noop Char.toLower ""
    (initResponse [record "1" "www.CNN.com", [("id", .S "2")], [("domain", .N "5")]] 3)
    (Or.inl rfl)

/-- C9: the filter step is idempotent: applied to its own output with the same
substring it changes neither Items, nor Count, nor ScannedCount. -/
theorem filter_idempotent (lower : Char → Char) (domainSubstring : String)
    (response : DynamoDBResponse) :
    applyDomainFilter lower domainSubstring
        (applyDomainFilter lower domainSubstring response) =
      applyDomainFilter lower domainSubstring response := by
  by_cases hg : domainSubstring = "" ∨ response.Items = []
  · rw [applyDomainFilter_of_not_guard lower domainSubstring response hg,
      applyDomainFilter_of_not_guard lower domainSubstring response hg]
  · have hsub : domainSubstring ≠ "" := fun h => hg (Or.inl h)
    have hne : response.Items ≠ [] := fun h => hg (Or.inr h)
    rw [applyDomainFilter_of_guard lower domainSubstring response hsub hne]
    by_cases hf : response.Items.filter (domainMatches lower domainSubstring) = []
    · exact applyDomainFilter_of_not_guard lower domainSubstring _ (Or.inr hf)
    · rw [applyDomainFilter_of_guard lower domainSubstring _ hsub hf]
      simp [List.filter_filter]

/-- C10: the filtered Items are a subsequence of the accumulated ones: each
retained record is an accumulated record, and the retained records keep their
relative order. -/
theorem filter_stable (lower : Char → Char) (domainSubstring : String)
    (response : DynamoDBResponse) :
    (applyDomainFilter lower domainSubstring response).Items.Sublist response.Items ∧
      ∀ item ∈ (applyDomainFilter lower domainSubstring response).Items,
        item ∈ response.Items := by
  have hsub : (applyDomainFilter lower domainSubstring response).Items.Sublist
      response.Items := by
    by_cases hg : domainSubstring = "" ∨ response.Items = []
    · rw [applyDomainFilter_of_not_guard lower domainSubstring response hg]
    · have h1 : domainSubstring ≠ "" := fun h => hg (Or.inl h)
      have h2 : response.Items ≠ [] := fun h => hg (Or.inr h)
      rw [applyDomainFilter_of_guard lower domainSubstring response h1 h2]
      exact List.filter_sublist _
  exact ⟨hsub, fun item hi => hsub.subset hi⟩

/-! ## Duration parsing: zero, range and overflow -/

/-- A token of the declared shape whose digits fit an `int` is parsed without
error. -/
theorem ParseDuration_ok_of_fits {ds : List Char} {u : Char} (hne : ds ≠ [])
    (hd : ∀ c ∈ ds, c.isDigit = true) (hu : isUnitLetter u = true)
    (hv : (decimalValue ds : Int) ≤ maxInt64) :
    (ParseDuration (String.mk (ds ++ [u]))).2 = none := by
  have hu' := hu
  simp only [isUnitLetter, Bool.or_eq_true, beq_iff_eq] at hu'
  unfold ParseDuration
  rw [findStringSubmatch_append hne hd hu]
  simp only []
  rw [Atoi_digits hne hd, if_pos hv]
  rcases hu' with (((rfl | rfl) | rfl) | rfl) | rfl <;> simp

/-- A token of the declared shape whose digits exceed the largest `int` is
refused with the invalid-value error. -/
theorem ParseDuration_range_error {ds : List Char} {u : Char} (hne : ds ≠ [])
    (hd : ∀ c ∈ ds, c.isDigit = true) (hu : isUnitLetter u = true)
    (hv : maxInt64 < (decimalValue ds : Int)) :
    ParseDuration (String.mk (ds ++ [u])) = (0, some (.invalidValue .rangeErr)) := by
  unfold ParseDuration
  rw [findStringSubmatch_append hne hd hu]
  simp only []
  rw [Atoi_digits hne hd, if_neg (not_le.mpr hv)]

/-- C12, as amended: `ParseDuration` does not reject a zero magnitude: for
every unit letter among h, d, w, m, y the token "0" followed by that letter
yields no error and the zero duration, so a successful parse may have a zero
magnitude and a zero duration. -/
theorem parseDuration_accepts_zero (u : Char) (hu : isUnitLetter u = true) :
    ParseDuration (String.mk (['0'] ++ [u])) = (0, none) := by
  have h : ParseDuration (String.mk (['0'] ++ [u])) =
      (((decimalValue ['0'] * hoursPerUnit u : Nat) : Int) * Hour, none) :=
    ParseDuration_of_bound (by decide) (by decide) hu (by simp [decimalValue])
  simpa [decimalValue] using h

/-- Witness for C12 as amended: zero hours. -/
theorem parseDuration_accepts_zero_witness :
    ParseDuration "0h" = (0, none) :=
  parseDuration_accepts_zero 'h' (by decide)

/-- C12 fails as stated: the token "0d" is accepted, with no error and a zero
duration. -/
theorem parseDuration_zero_days_accepted :
    ParseDuration "0d" = (0, none) ∧ (ParseDuration "0d").2 = none := by
  decide

/-- C13, as amended: for a text of the declared shape the integer conversion
succeeds, and the parse returns no error, exactly when the value of the digits
is at most 9223372036854775807; above that the parse fails with the
invalid-value error, which is therefore reachable. -/
theorem parseDuration_invalid_value_reach (ds : List Char) (u : Char) (hne : ds ≠ [])
    (hd : ∀ c ∈ ds, c.isDigit = true) (hu : isUnitLetter u = true) :
    ((decimalValue ds : Int) ≤ 9223372036854775807 →
        (ParseDuration (String.mk (ds ++ [u]))).2 = none) ∧
      ((9223372036854775807 : Int) < decimalValue ds →
        ParseDuration (String.mk (ds ++ [u])) = (0, some (.invalidValue .rangeErr))) := by
  constructor
  · intro hv
    exact ParseDuration_ok_of_fits hne hd hu (by unfold maxInt64; omega)
  · intro hv
    exact ParseDuration_range_error hne hd hu (by unfold maxInt64; omega)

/-- Witness for C13 as amended: the largest `int` is converted, in hours it
only overflows the duration. -/
theorem parseDuration_invalid_value_reach_witness :
    (ParseDuration "9223372036854775807h").2 = none :=
  (parseDuration_invalid_value_reach
    ['9', '2', '2', '3', '3', '7', '2', '0', '3', '6', '8', '5', '4', '7', '7', '5', '8', '0',
      '7'] 'h' (by decide) (by decide) (by decide)).1 (by decide)

/-- C13 fails as stated: "9223372036854775808h" has the declared shape, yet
the conversion of its digits fails and the parse returns the invalid-value
error, not the invalid-format one. -/
theorem parseDuration_invalid_value_reached :
    (findStringSubmatch "9223372036854775808h").isSome = true ∧
      ParseDuration "9223372036854775808h" = (0, some (.invalidValue .rangeErr)) := by
  decide

/-- C19: for every token of the declared shape whose magnitude times the
hours of its unit is at most 2,562,047, `ParseDuration` returns exactly that
many hours in nanoseconds, a value that is non-negative and within the 64-bit
range, so that nothing wrapped around. -/
theorem parseDuration_no_wrap (ds : List Char) (u : Char) (hne : ds ≠ [])
    (hd : ∀ c ∈ ds, c.isDigit = true) (hu : isUnitLetter u = true)
    (hb : decimalValue ds * hoursPerUnit u ≤ 2562047) :
    ParseDuration (String.mk (ds ++ [u])) =
        (((decimalValue ds * hoursPerUnit u : Nat) : Int) * 3600000000000, none) ∧
      0 ≤ (ParseDuration (String.mk (ds ++ [u]))).1 ∧
      (ParseDuration (String.mk (ds ++ [u]))).1 ≤ 9223372036854775807 := by
  have h := ParseDuration_of_bound hne hd hu hb
  rw [h]
  simp only [Hour, true_and]
  constructor
  · positivity
  · have : ((decimalValue ds * hoursPerUnit u : Nat) : Int) ≤ 2562047 := by exact_mod_cast hb
    omega

/-- Witness for C19: 292 years, the largest whole number of years within the
bound. -/
theorem parseDuration_no_wrap_witness :
    ParseDuration "292y" = (9208512000000000000, none) ∧
      0 ≤ (ParseDuration "292y").1 ∧ (ParseDuration "292y").1 ≤ 9223372036854775807 :=
  parseDuration_no_wrap ['2', '9', '2'] 'y' (by decide) (by decide) (by decide) (by decide)

/-! ## The requests and the counters of a whole run -/

/-- Whatever the store, the requests of the loop are built by `mkInput`, the
first from the cursor the loop starts with. -/
theorem queryLoop_requests {σ : Type} (query : StoreQuery σ)
    (mkInput : Option Item → QueryInput) :
    ∀ (fuel : Nat) (store : σ) (requests : List QueryInput) (allItems : List Item)
      (cursor : Option Item) (totalCount : Int) (e : LoopExit σ),
      queryLoop query mkInput fuel store requests allItems cursor totalCount = some e →
      ∃ cursors : List (Option Item),
        e.requests = requests ++ (cursor :: cursors).map mkInput := by
  intro fuel
  induction fuel with
  | zero =>
    intro store requests allItems cursor totalCount e h
    simp [queryLoop] at h
  | succ fuel ih =>
    intro store requests allItems cursor totalCount e h
    rw [queryLoop] at h
    simp only [] at h
    split at h
    · simp only [Option.some.injEq] at h
      subst h
      exact ⟨[], by simp⟩
    · split at h
      · simp only [Option.some.injEq] at h
        subst h
        exact ⟨[], by simp⟩
      · next key _ =>
        obtain ⟨cursors, hc⟩ := ih _ _ _ _ _ _ h
        exact ⟨some key :: cursors, by simp [hc]⟩

/-- The filter step never touches `ConsumedCapacity` nor `ScannedCount`. -/
theorem applyDomainFilter_frame (lower : Char → Char) (domainSubstring : String)
    (response : DynamoDBResponse) :
    (applyDomainFilter lower domainSubstring response).ConsumedCapacity =
        response.ConsumedCapacity ∧
      (applyDomainFilter lower domainSubstring response).ScannedCount =
        response.ScannedCount := by
  unfold applyDomainFilter
  split <;> simp

/-- Whatever the store returns, the response of `QueryByCategory` has a nil
`ConsumedCapacity`, and every request asked for the total. -/
theorem QueryByCategory_consumedCapacity {σ : Type} (lower : Char → Char)
    (query : StoreQuery σ) (fuel : Nat) (store : σ)
    (tableName category startDate endDate domainSubstring : String) (o : Outcome σ)
    (h : QueryByCategory lower query fuel store tableName category startDate endDate
      domainSubstring = some o) :
    (∀ r, o.response = some r → r.ConsumedCapacity = none) ∧
      ∀ req ∈ o.requests, req.ReturnConsumedCapacity = .TOTAL := by
  unfold QueryByCategory at h
  split at h
  · simp at h
  · next err requests store' hl =>
    simp only [Option.some.injEq] at h
    subst h
    obtain ⟨cursors, hc⟩ := queryLoop_requests _ _ _ _ _ _ _ _ _ hl
    have hc' : requests =
        (none :: cursors).map (buildInput tableName category startDate endDate) := by
      simpa using hc
    refine ⟨by simp, ?_⟩
    intro req hreq
    rw [hc'] at hreq
    obtain ⟨c, _, rfl⟩ := List.mem_map.mp hreq
    rfl
  · next allItems totalCount requests store' hl =>
    simp only [Option.some.injEq] at h
    subst h
    obtain ⟨cursors, hc⟩ := queryLoop_requests _ _ _ _ _ _ _ _ _ hl
    refine ⟨?_, ?_⟩
    · intro r hr
      simp only [Option.some.injEq] at hr
      subst hr
      rw [(applyDomainFilter_frame _ _ _).1]
      rfl
    · intro req hreq
      have hc' : requests =
          (none :: cursors).map (buildInput tableName category startDate endDate) := by
        simpa using hc
      rw [hc'] at hreq
      obtain ⟨c, _, rfl⟩ := List.mem_map.mp hreq
      rfl

/-- When every page reports as its count the number of its items, the sum of
the counts is the number of accumulated items. -/
theorem sum_counts_eq_length (ps : List QueryOutput)
    (h : ∀ p ∈ ps, p.Count = p.Items.length) :
    (ps.map (·.Count)).sum = (((ps.map (·.Items)).flatten.length : Nat) : Int) := by
  induction ps with
  | nil => simp
  | cons p ps ih =>
    have hp : p.Count = p.Items.length := h p (by simp)
    have ih' := ih (fun q hq => h q (by simp [hq]))
    simp only [List.map_cons, List.sum_cons, List.flatten_cons, List.length_append,
      Nat.cast_add, hp, ih']

/-- The whole result of a successful scripted run, before any simplification
of the counters. -/
theorem QueryByCategory_scripted_pages (lower : Char → Char)
    (ps : List QueryOutput) (last : QueryOutput)
    (rest : List (Except StoreError QueryOutput)) (fuel : Nat)
    (tableName category startDate endDate domainSubstring : String)
    (hps : ∀ p ∈ ps, p.LastEvaluatedKey ≠ none) (hlast : last.LastEvaluatedKey = none)
    (hf : ps.length < fuel) :
    QueryByCategory lower scriptedQuery fuel (ps.map .ok ++ .ok last :: rest) tableName
        category startDate endDate domainSubstring =
      some ⟨some (applyDomainFilter lower domainSubstring
              (initResponse ((ps ++ [last]).map (·.Items)).flatten
                (wrapInt32 ((ps ++ [last]).map (·.Count)).sum))),
            none,
            (none :: ps.map (·.LastEvaluatedKey)).map
              (buildInput tableName category startDate endDate),
            rest⟩ := by
  unfold QueryByCategory
  rw [queryLoop_scripted_pages _ ps last rest hps hlast fuel _ _ _ _ hf]
  simp

/-! ## Consumed capacity, request shape and counters: the claims -/

/-- C14, evaluated on a failing input: the single request asks for the total
consumed capacity and the store's page carries it, yet the response returned
has a nil `ConsumedCapacity`. -/
theorem queryByCategory_drops_consumedCapacity :
    (QueryByCategory Char.toLower scriptedQuery 1
        [.ok { Items := [record "A" "a.example"], Count := 1, ScannedCount := 1,
               LastEvaluatedKey := none,
               ConsumedCapacity := some { TableName := some "dreamydungbeetle" } }]
        "dreamydungbeetle" "news" "2026-11-02" "2026-11-04~" "").map
        (fun o => (o.requests.map (·.ReturnConsumedCapacity),
          o.response.map (·.ConsumedCapacity))) =
      some ([.TOTAL], some none) := by
  rfl

/-- C18: over a run of pages of which all but the last carry a cursor, the
requests issued are, in order, one without cursor and then one per page
carrying that page's cursor; all have the given table name, the key condition
on `category` and on `timestamp` between the given bounds, and the same
attribute names and values. -/
theorem queryByCategory_one_logical_query (lower : Char → Char)
    (ps : List QueryOutput) (last : QueryOutput)
    (rest : List (Except StoreError QueryOutput)) (fuel : Nat)
    (tableName category startDate endDate domainSubstring : String)
    (hps : ∀ p ∈ ps, p.LastEvaluatedKey ≠ none) (hlast : last.LastEvaluatedKey = none)
    (hf : ps.length < fuel) :
    (QueryByCategory lower scriptedQuery fuel (ps.map .ok ++ .ok last :: rest) tableName
        category startDate endDate domainSubstring).map (·.requests) =
      some ((none :: ps.map (·.LastEvaluatedKey)).map fun cursor =>
        { TableName := tableName
          KeyConditionExpression :=
            "#cat = :category_term AND #ts BETWEEN :start_date AND :end_date_max"
          ExpressionAttributeNames := [("#cat", "category"), ("#ts", "timestamp")]
          ExpressionAttributeValues :=
            [(":category_term", .S category), (":start_date", .S startDate),
             (":end_date_max", .S endDate)]
          ReturnConsumedCapacity := .TOTAL
          ExclusiveStartKey := cursor }) := by
  rw [QueryByCategory_scripted_pages lower ps last rest fuel tableName category startDate
    endDate domainSubstring hps hlast hf]
  rfl

/-- Witness for C18: three pages, hence three requests, the second and third
carrying the cursors of the first and second page. -/
theorem queryByCategory_one_logical_query_witness :
    ((QueryByCategory Char.toLower scriptedQuery 3
        [.ok (page [record "A" "a.example"] 1 (some [("id", .S "A")])),
         .ok (page [record "B" "b.example"] 1 (some [("id", .S "B")])),
         .ok (page [] 0 none)]
        "dreamydungbeetle" "news" "2026-11-02" "2026-11-04~" "").map (·.requests)).map
        (fun rs => rs.map (fun r => (r.TableName, r.KeyConditionExpression,
          r.ExpressionAttributeNames, r.ExclusiveStartKey.map (·.map (·.1))))) =
      some
        [("dreamydungbeetle",
          "#cat = :category_term AND #ts BETWEEN :start_date AND :end_date_max",
          [("#cat", "category"), ("#ts", "timestamp")], none),
         ("dreamydungbeetle",
          "#cat = :category_term AND #ts BETWEEN :start_date AND :end_date_max",
          [("#cat", "category"), ("#ts", "timestamp")], some ["id"]),
         ("dreamydungbeetle",
          "#cat = :category_term AND #ts BETWEEN :start_date AND :end_date_max",
          [("#cat", "category"), ("#ts", "timestamp")], some ["id"])] :=
  congrArg
    (Option.map (fun rs => rs.map (fun r => (r.TableName, r.KeyConditionExpression,
      r.ExpressionAttributeNames, r.ExclusiveStartKey.map (·.map (·.1))))))
    (queryByCategory_one_logical_query Char.toLower
      [page [record "A" "a.example"] 1 (some [("id", .S "A")]),
       page [record "B" "b.example"] 1 (some [("id", .S "B")])]
      (page [] 0 none) [] 3 "dreamydungbeetle" "news" "2026-11-02" "2026-11-04~" ""
      (by simp [page]) rfl (by decide))

/-- C20, as amended: over a run of successful pages, ScannedCount in the
response is always the 32-bit sum, with wrap-around, of the counts the pages
report (their own ScannedCount plays no part), hence the sum itself whenever
that lies in the `int32` range.  It always equals Count when no filter is
applied (empty substring or no accumulated item); and it is at least Count
when a substring is given, every page reports as its count the number of its
items, and the sum is below 2^31. -/
theorem queryByCategory_scannedCount_sum (lower : Char → Char)
    (ps : List QueryOutput) (last : QueryOutput)
    (rest : List (Except StoreError QueryOutput)) (fuel : Nat)
    (tableName category startDate endDate domainSubstring : String)
    (hps : ∀ p ∈ ps, p.LastEvaluatedKey ≠ none) (hlast : last.LastEvaluatedKey = none)
    (hf : ps.length < fuel) :
    ∃ r : DynamoDBResponse,
      (QueryByCategory lower scriptedQuery fuel (ps.map .ok ++ .ok last :: rest) tableName
        category startDate endDate domainSubstring).map (·.response) = some (some r) ∧
      r.ScannedCount = wrapInt32 ((ps ++ [last]).map (·.Count)).sum ∧
      (-(2 ^ 31) ≤ ((ps ++ [last]).map (·.Count)).sum →
        ((ps ++ [last]).map (·.Count)).sum < 2 ^ 31 →
        r.ScannedCount = ((ps ++ [last]).map (·.Count)).sum) ∧
      (domainSubstring = "" ∨ ((ps ++ [last]).map (·.Items)).flatten = [] →
        r.Count = r.ScannedCount) ∧
      (domainSubstring ≠ "" → (∀ p ∈ ps ++ [last], p.Count = p.Items.length) →
        ((ps ++ [last]).map (·.Count)).sum < 2 ^ 31 → r.Count ≤ r.ScannedCount) := by
  rw [QueryByCategory_scripted_pages lower ps last rest fuel tableName category startDate
    endDate domainSubstring hps hlast hf]
  refine ⟨_, rfl, ?_, ?_, ?_, ?_⟩
  · rw [(applyDomainFilter_frame _ _ _).2]
    rfl
  · intro hlo hhi
    rw [(applyDomainFilter_frame _ _ _).2]
    exact wrapInt32_of_range hlo hhi
  · intro hg
    have hg' : domainSubstring = "" ∨
        (initResponse ((ps ++ [last]).map (·.Items)).flatten
          (wrapInt32 ((ps ++ [last]).map (·.Count)).sum)).Items = [] := hg
    rw [applyDomainFilter_of_not_guard _ _ _ hg']
    rfl
  · intro hsub hcount hhi
    rw [(applyDomainFilter_frame _ _ _).2]
    by_cases hne : (initResponse ((ps ++ [last]).map (·.Items)).flatten
        (wrapInt32 ((ps ++ [last]).map (·.Count)).sum)).Items = []
    · rw [applyDomainFilter_of_not_guard _ _ _ (Or.inr hne)]
      exact le_refl _
    · rw [applyDomainFilter_of_guard _ _ _ hsub hne]
      simp only [initResponse]
      have hsum := sum_counts_eq_length (ps ++ [last]) hcount
      have hle : (List.filter (domainMatches lower domainSubstring)
          ((ps ++ [last]).map (·.Items)).flatten).length ≤
          ((ps ++ [last]).map (·.Items)).flatten.length := List.length_filter_le _ _
      rw [hsum] at hhi ⊢
      rw [wrapInt32_of_range (by omega) (by omega), wrapInt32_of_range (by omega) (by omega)]
      exact_mod_cast hle

/-- Witness for C20 as amended: two pages reporting 2 and 3 for their 2 and 3
records, filtered by "cnn": ScannedCount is 5 and Count is at most that. -/
theorem queryByCategory_scannedCount_sum_witness :
    ∃ r : DynamoDBResponse,
      (QueryByCategory Char.toLower scriptedQuery 2
        ([page [record "1" "www.cnn.com", record "2" "www.bbc.co.uk"] 2
            (some [("id", .S "2")])].map .ok ++
          .ok (page [record "3" "edition.CNN.com", [("id", .S "4")],
            record "5" "example.org"] 3 none) :: [])
        "dreamydungbeetle" "news" "2026-11-02" "2026-11-04~" "cnn").map (·.response) =
          some (some r) ∧
      r.ScannedCount = 5 ∧ r.Count ≤ r.ScannedCount :=
  have h := queryByCategory_scannedCount_sum Char.toLower
    [page [record "1" "www.cnn.com", record "2" "www.bbc.co.uk"] 2 (some [("id", .S "2")])]
    (page [record "3" "edition.CNN.com", [("id", .S "4")], record "5" "example.org"] 3 none)
    [] 2 "dreamydungbeetle" "news" "2026-11-02" "2026-11-04~" "cnn"
    (by simp [page]) rfl (by decide)
  h.elim fun r hr =>
    ⟨r, hr.1, hr.2.2.1 (by decide) (by decide),
      hr.2.2.2.2 (by decide) (by simp [page, record]) (by decide)⟩

/-- C20 fails as stated.  Two pages reporting the counts 2147483647 and 1 give
a ScannedCount of -2147483648, which is not their sum 2147483648.  And two
pages of 2^30 records each, reporting that number, the first page's records
all matching "cnn", give a Count of 2^30 above a ScannedCount of
-2147483648. -/
theorem queryByCategory_scannedCount_wraps :
    ((QueryByCategory Char.toLower scriptedQuery 2
        [.ok (page [record "A" "a.example"] 2147483647 (some [("id", .S "A")])),
         .ok (page [record "B" "b.example"] 1 none)]
        "dreamydungbeetle" "news" "2026-11-02" "2026-11-04~" "").map
        (fun o => o.response.map (·.ScannedCount)) = some (some (-2147483648)) ∧
      ([2147483647, 1] : List Int).sum = 2147483648) ∧
    (QueryByCategory Char.toLower scriptedQuery 2
        ([page (List.replicate 1073741824 (record "1" "www.cnn.com")) 1073741824
            (some [("id", .S "1")])].map .ok ++
          .ok (page (List.replicate 1073741824 (record "2" "example.org")) 1073741824
            none) :: [])
        "dreamydungbeetle" "news" "2026-11-02" "2026-11-04~" "cnn").map
        (fun o => o.response.map (fun r => (r.Count, r.ScannedCount))) =
      some (some (1073741824, -2147483648)) := by
  refine ⟨⟨rfl, by decide⟩, ?_⟩
  have hps : ∀ p ∈ [page (List.replicate 1073741824 (record "1" "www.cnn.com")) 1073741824
      (some [("id", .S "1")])], p.LastEvaluatedKey ≠ none := by
    intro p hp
    rw [List.mem_singleton] at hp
    subst hp
    exact Option.some_ne_none _
  have h1 : domainMatches Char.toLower "cnn" (record "1" "www.cnn.com") = true := by decide
  have h2 : ¬ domainMatches Char.toLower "cnn" (record "2" "example.org") = true := by decide
  rw [QueryByCategory_scripted_pages Char.toLower _ _ [] 2 "dreamydungbeetle" "news"
    "2026-11-02" "2026-11-04~" "cnn" hps rfl (by decide)]
  have hitems : (([page (List.replicate 1073741824 (record "1" "www.cnn.com")) 1073741824
        (some [("id", .S "1")])] ++
      [page (List.replicate 1073741824 (record "2" "example.org")) 1073741824 none]).map
        (·.Items)).flatten =
      List.replicate 1073741824 (record "1" "www.cnn.com") ++
        List.replicate 1073741824 (record "2" "example.org") := by
    simp only [List.singleton_append, List.map_cons, List.map_nil, List.flatten_cons,
      List.flatten_nil, List.append_nil, page]
  have hsum : (([page (List.replicate 1073741824 (record "1" "www.cnn.com")) 1073741824
        (some [("id", .S "1")])] ++
      [page (List.replicate 1073741824 (record "2" "example.org")) 1073741824 none]).map
        (·.Count)).sum = 2147483648 := by
    simp only [List.singleton_append, List.map_cons, List.map_nil, List.sum_cons,
      List.sum_nil, page]
    decide
  rw [hitems, hsum]
  have hne : (initResponse (List.replicate 1073741824 (record "1" "www.cnn.com") ++
      List.replicate 1073741824 (record "2" "example.org")) (wrapInt32 2147483648)).Items ≠
      [] := by
    intro h
    have hl := congrArg List.length h
    simp only [initResponse, List.length_append, List.length_replicate, List.length_nil] at hl
    omega
  rw [applyDomainFilter_of_guard Char.toLower "cnn" _ (by decide) hne]
  simp only [initResponse, List.filter_append, List.filter_replicate_of_pos h1,
    List.filter_replicate_of_neg h2, List.append_nil, List.length_replicate, Option.map_some']
  decide

/-- C15, as amended: over a run of successful pages and with a non-empty
domain substring, provided every page reports as its count the number of its
items and the records number fewer than 2^31 in all, `QueryByCategory` returns
no error and exactly the records of all pages that pass the domain test, in
their original order, with Count their number and ScannedCount the number of
records over all pages. -/
theorem queryByCategory_end_to_end (lower : Char → Char)
    (ps : List QueryOutput) (last : QueryOutput)
    (rest : List (Except StoreError QueryOutput)) (fuel : Nat)
    (tableName category startDate endDate domainSubstring : String)
    (hps : ∀ p ∈ ps, p.LastEvaluatedKey ≠ none) (hlast : last.LastEvaluatedKey = none)
    (hf : ps.length < fuel) (hsub : domainSubstring ≠ "")
    (hcount : ∀ p ∈ ps ++ [last], p.Count = p.Items.length)
    (hhi : ((ps ++ [last]).map (·.Items)).flatten.length < 2 ^ 31) :
    (QueryByCategory lower scriptedQuery fuel (ps.map .ok ++ .ok last :: rest) tableName
        category startDate endDate domainSubstring).map (fun o => (o.response, o.err)) =
      some (some
        { Items := (((ps ++ [last]).map (·.Items)).flatten).filter
            (domainMatches lower domainSubstring)
          Count := ((((ps ++ [last]).map (·.Items)).flatten).filter
            (domainMatches lower domainSubstring)).length
          ScannedCount := ((ps ++ [last]).map (·.Items)).flatten.length
          ConsumedCapacity := none }, none) ∧
      ∀ item : Item, domainMatches lower domainSubstring item = true ↔
        ∃ v : String, item.lookup "domain" = some (.S v) ∧
          (ToLower lower domainSubstring).data <:+: (ToLower lower v).data := by
  refine ⟨?_, fun item => domainMatches_iff lower domainSubstring item⟩
  rw [QueryByCategory_scripted_pages lower ps last rest fuel tableName category startDate
    endDate domainSubstring hps hlast hf]
  have hsum := sum_counts_eq_length (ps ++ [last]) hcount
  have hle : (List.filter (domainMatches lower domainSubstring)
      ((ps ++ [last]).map (·.Items)).flatten).length ≤
      ((ps ++ [last]).map (·.Items)).flatten.length := List.length_filter_le _ _
  rw [hsum, wrapInt32_of_range (by omega) (by omega)]
  generalize ((ps ++ [last]).map (·.Items)).flatten = allItems at hle hhi ⊢
  by_cases hne : allItems = []
  · have hne' : (initResponse allItems (allItems.length : Nat)).Items = [] := hne
    rw [applyDomainFilter_of_not_guard _ _ _ (Or.inr hne')]
    subst hne
    rfl
  · have hne' : (initResponse allItems (allItems.length : Nat)).Items ≠ [] := hne
    rw [applyDomainFilter_of_guard _ _ _ hsub hne']
    simp only [initResponse, Option.map_some']
    rw [wrapInt32_of_range (by omega) (by omega)]

/-- Witness for C15 as amended, on the specification's scenario: two pages
totalling five records, two of them with a domain containing "cnn"; Count is
2 and ScannedCount is 5. -/
theorem queryByCategory_end_to_end_witness :
    (QueryByCategory Char.toLower scriptedQuery 2
        [.ok (page [record "1" "www.cnn.com", record "2" "www.bbc.co.uk"] 2
          (some [("id", .S "2")])),
         .ok (page [record "3" "www.cnn.com", [("id", .S "4")], record "5" "example.org"] 3
          none)]
        "dreamydungbeetle" "news" "2026-11-02" "2026-11-04~" "cnn").map
        (fun o => (o.response, o.err)) =
      some (some { Items := [record "1" "www.cnn.com", record "3" "www.cnn.com"],
                   Count := 2, ScannedCount := 5, ConsumedCapacity := none }, none) :=
  (queryByCategory_end_to_end Char.toLower
    [page [record "1" "www.cnn.com", record "2" "www.bbc.co.uk"] 2 (some [("id", .S "2")])]
    (page [record "3" "www.cnn.com", [("id", .S "4")], record "5" "example.org"] 3 none)
    [] 2 "dreamydungbeetle" "news" "2026-11-02" "2026-11-04~" "cnn"
    (by simp [page]) rfl (by decide) (by decide) (by simp [page, record])
    (by simp [page, record])).1

/-- C15 fails as stated: a store whose second page reports a count of 30 for
its three records makes ScannedCount 32, while the pages hold five records. -/
theorem queryByCategory_scannedCount_not_total :
    (QueryByCategory Char.toLower scriptedQuery 2
        [.ok (page [record "1" "www.cnn.com", record "2" "www.bbc.co.uk"] 2
          (some [("id", .S "2")])),
         .ok (page [record "3" "www.cnn.com", [("id", .S "4")], record "5" "example.org"] 30
          none)]
        "dreamydungbeetle" "news" "2026-11-02" "2026-11-04~" "cnn").map
        (fun o => o.response.map (fun r => (r.Items.length, r.Count, r.ScannedCount))) =
      some (some (2, 2, 32)) := by
  rfl

/-! ## Cancellation -/

/-- The loop under a context cancelled once as many pages as `ps`, all with a
cursor, have been received: one more request is made, and it fails. -/
theorem queryLoop_cancelled (mkInput : Option Item → QueryInput)
    (ps : List QueryOutput) (rest : List (Except StoreError QueryOutput))
    (hps : ∀ p ∈ ps, p.LastEvaluatedKey ≠ none) :
    ∀ (fuel : Nat) (requests : List QueryInput) (allItems : List Item)
      (cursor : Option Item) (totalCount : Int), ps.length < fuel →
      queryLoop cancellableQuery mkInput fuel ⟨ps.length, ps.map .ok ++ rest⟩ requests
          allItems cursor totalCount =
        some ⟨.error "context canceled",
              requests ++ (cursor :: ps.map (·.LastEvaluatedKey)).map mkInput,
              ⟨0, rest⟩⟩ := by
  induction ps with
  | nil =>
    intro fuel requests allItems cursor totalCount hf
    obtain ⟨fuel, rfl⟩ : ∃ k, fuel = k + 1 := ⟨fuel - 1, by simp at hf; omega⟩
    simp [queryLoop, cancellableQuery]
  | cons p ps ih =>
    intro fuel requests allItems cursor totalCount hf
    obtain ⟨fuel, rfl⟩ : ∃ k, fuel = k + 1 := ⟨fuel - 1, by simp at hf; omega⟩
    have hp : p.LastEvaluatedKey ≠ none := hps p (by simp)
    obtain ⟨key, hkey⟩ := Option.ne_none_iff_exists'.mp hp
    have hps' : ∀ q ∈ ps, q.LastEvaluatedKey ≠ none := fun q hq => hps q (by simp [hq])
    have hf' : ps.length < fuel := by simp at hf; omega
    simp only [List.map_cons, List.cons_append, List.length_cons, queryLoop,
      cancellableQuery, hkey]
    rw [ih hps' fuel _ _ _ _ hf']
    simp [List.append_assoc]

/-- C16, as amended: `QueryByCategory` does not look at the context between
page fetches.  When the context is cancelled after `k` pages with a cursor
have been received, the next request is still handed to the store client; the
client's error for the cancelled context comes back as the query-failed
error with a nil response, after `k + 1` requests and with no retry. -/
theorem queryByCategory_cancelled_context (lower : Char → Char)
    (ps : List QueryOutput) (rest : List (Except StoreError QueryOutput)) (fuel : Nat)
    (tableName category startDate endDate domainSubstring : String)
    (hps : ∀ p ∈ ps, p.LastEvaluatedKey ≠ none) (hf : ps.length < fuel) :
    (QueryByCategory lower cancellableQuery fuel ⟨ps.length, ps.map .ok ++ rest⟩ tableName
        category startDate endDate domainSubstring).map
        (fun o => (o.response, o.err, o.requests.length, o.store.responses)) =
      some (none, some (.queryFailed "context canceled"), ps.length + 1, rest) := by
  unfold QueryByCategory
  rw [queryLoop_cancelled _ ps rest hps fuel _ _ _ _ hf]
  simp

/-- Witness for C16 as amended: cancellation after two pages. -/
theorem queryByCategory_cancelled_context_witness :
    (QueryByCategory Char.toLower cancellableQuery 10
        ⟨2, [.ok (page [record "A" "a.example"] 1 (some [("id", .S "A")])),
             .ok (page [record "B" "b.example"] 1 (some [("id", .S "B")])),
             .ok (page [record "C" "c.example"] 1 none)]⟩
        "dreamydungbeetle" "news" "2026-11-02" "2026-11-04~" "").map
        (fun o => (o.response, o.err, o.requests.length, o.store.responses)) =
      some (none, some (.queryFailed "context canceled"), 3,
        [.ok (page [record "C" "c.example"] 1 none)]) :=
  queryByCategory_cancelled_context Char.toLower
    [page [record "A" "a.example"] 1 (some [("id", .S "A")]),
     page [record "B" "b.example"] 1 (some [("id", .S "B")])]
    [.ok (page [record "C" "c.example"] 1 none)] 10
    "dreamydungbeetle" "news" "2026-11-02" "2026-11-04~" "" (by simp [page]) (by decide)

/-- C16 fails as stated: the context is cancelled once the first page, which
has a cursor, has been received; a second request is nevertheless issued,
carrying that cursor, and the error returned is the query-failed one. -/
theorem queryByCategory_ignores_cancellation :
    (QueryByCategory Char.toLower cancellableQuery 10
        ⟨1, [.ok (page [record "A" "a.example"] 1 (some [("id", .S "A")])),
             .ok (page [record "B" "b.example"] 1 none)]⟩
        "dreamydungbeetle" "news" "2026-11-02" "2026-11-04~" "").map
        (fun o => (o.requests.length, o.requests.map (·.ExclusiveStartKey.isSome),
          o.err)) =
      some (2, [false, true], some (.queryFailed "context canceled")) := by
  rfl

/-! ## The date range -/

/-- The day-to-date conversion on known dates: the epoch and the day before,
both sides of 29 February 2000 and of the missing 29 February 1900, the first
day of year 0 and the last of year 9999. -/
theorem civilFromDays_known :
    civilFromDays 0 = ⟨1970, 1, 1⟩ ∧ civilFromDays (-1) = ⟨1969, 12, 31⟩ ∧
    civilFromDays 20761 = ⟨2026, 11, 4⟩ ∧
    civilFromDays 11016 = ⟨2000, 2, 29⟩ ∧ civilFromDays 11017 = ⟨2000, 3, 1⟩ ∧
    civilFromDays (-25509) = ⟨1900, 2, 28⟩ ∧ civilFromDays (-25508) = ⟨1900, 3, 1⟩ ∧
    civilFromDays (-719528) = ⟨0, 1, 1⟩ ∧ civilFromDays 2932896 = ⟨9999, 12, 31⟩ := by
  decide

/-- The formatting on known values, padding and sign included. -/
theorem formatDate_known :
    formatDate 1793750400000000000 = "2026-11-04" ∧
    formatDate 1793836799999999999 = "2026-11-04" ∧
    formatDate (-1) = "1969-12-31" ∧
    appendInt 7 2 = ['0', '7'] ∧ appendInt (-5) 4 = ['-', '0', '0', '0', '5'] ∧
    appendInt 12345 4 = ['1', '2', '3', '4', '5'] := by
  decide

/-- The date range of the default age flag on 4 November 2026. -/
theorem dateRange_known :
    dateRange 1793750400000000000 "7d" = .ok ("2026-10-28", "2026-11-04~") := by
  rfl

/-! ### The calendar is monotone -/

/-- Cutting off whole centuries, three at most, from a day of a 400-year
cycle. -/
theorem centuries_spec (r : Int) (hr0 : 0 ≤ r) (hr1 : r ≤ 146096) :
    0 ≤ r / 36524 - r / 36524 / 4 ∧ r / 36524 - r / 36524 / 4 ≤ 3 ∧
    0 ≤ r - 36524 * (r / 36524 - r / 36524 / 4) ∧
    (r / 36524 - r / 36524 / 4 < 3 → r - 36524 * (r / 36524 - r / 36524 / 4) ≤ 36523) := by
  have h1 : 0 ≤ r / 36524 := by omega
  have h2 : r / 36524 ≤ 4 := by omega
  generalize hq : r / 36524 = q at *
  interval_cases q <;> omega

/-- Cutting off whole years, three at most, from a day of a 4-year cycle. -/
theorem years_spec (t : Int) (ht0 : 0 ≤ t) (ht1 : t ≤ 1460) :
    0 ≤ t / 365 - t / 365 / 4 ∧ t / 365 - t / 365 / 4 ≤ 3 ∧
    0 ≤ t - 365 * (t / 365 - t / 365 / 4) ∧
    t - 365 * (t / 365 - t / 365 / 4) ≤ 365 ∧
    (t / 365 - t / 365 / 4 < 3 → t - 365 * (t / 365 - t / 365 / 4) ≤ 364) := by
  have h1 : 0 ≤ t / 365 := by omega
  have h2 : t / 365 ≤ 4 := by omega
  generalize hq : t / 365 = q at *
  interval_cases q <;> omega

/-- The numbers of whole cycles cut off by `marchYearDay` and what is left
after each cut. -/
theorem marchYearDay_spec (days : Int) :
    ∃ a b c e r s t u : Int,
      marchYearDay days = (400 * a + 100 * b + 4 * c + e, u) ∧
      days + 719468 = 146097 * a + r ∧ 0 ≤ r ∧ r ≤ 146096 ∧
      r = 36524 * b + s ∧ 0 ≤ b ∧ b ≤ 3 ∧ 0 ≤ s ∧ (b < 3 → s ≤ 36523) ∧
      s = 1461 * c + t ∧ 0 ≤ c ∧ 0 ≤ t ∧ t ≤ 1460 ∧
      t = 365 * e + u ∧ 0 ≤ e ∧ e ≤ 3 ∧ 0 ≤ u ∧ (e < 3 → u ≤ 364) ∧ u ≤ 365 := by
  have h400 : days + 719468 =
        146097 * ((days + 719468) / 146097) + (days + 719468) % 146097 ∧
      0 ≤ (days + 719468) % 146097 ∧ (days + 719468) % 146097 ≤ 146096 := by omega
  obtain ⟨hz, hr0, hr1⟩ := h400
  obtain ⟨hb0, hb1, hs0, hs1⟩ := centuries_spec _ hr0 hr1
  have h4 : ∀ s : Int, 0 ≤ s →
      s = 1461 * (s / 1461) + s % 1461 ∧ 0 ≤ s / 1461 ∧ 0 ≤ s % 1461 ∧ s % 1461 ≤ 1460 := by
    intro s hs; omega
  obtain ⟨hs, hc0, ht0, ht1⟩ := h4 _ hs0
  obtain ⟨he0, he1, hu0, hu1, hu2⟩ := years_spec _ ht0 ht1
  refine ⟨_, _, _, _, _, _, _, _, rfl, hz, hr0, hr1, ?_, hb0, hb1, hs0, hs1, hs, hc0, ht0, ht1,
    ?_, he0, he1, hu0, hu2, hu1⟩
  · ring
  · ring

/-- Later days have a later year beginning in March, or the same one and a
higher rank in it. -/
theorem marchYearDay_mono {z z' : Int} (h : z ≤ z') :
    (marchYearDay z).1 < (marchYearDay z').1 ∨
      ((marchYearDay z).1 = (marchYearDay z').1 ∧ (marchYearDay z).2 ≤ (marchYearDay z').2) := by
  obtain ⟨a, b, c, e, r, s, t, u, heq, hZ, hr0, hr1, hr, hb0, hb1, hs0, hs1, hs, hc0, ht0, ht1,
    ht, he0, he1, hu0, hu1, _⟩ := marchYearDay_spec z
  obtain ⟨a', b', c', e', r', s', t', u', heq', hZ', hr0', hr1', hr', hb0', hb1', hs0', hs1',
    hs', hc0', ht0', ht1', ht', he0', he1', hu0', hu1', _⟩ := marchYearDay_spec z'
  rw [heq, heq']
  simp only []
  rcases lt_trichotomy a a' with h1 | h1 | h1
  · left
    have : c ≤ 24 := by omega
    omega
  · subst h1
    rcases lt_trichotomy b b' with h2 | h2 | h2
    · left
      have : c ≤ 24 := by omega
      omega
    · subst h2
      rcases lt_trichotomy c c' with h3 | h3 | h3
      · left; omega
      · subst h3
        rcases lt_trichotomy e e' with h4 | h4 | h4
        · left; omega
        · subst h4; right; omega
        · exfalso; omega
      · exfalso; omega
    · exfalso; omega
  · exfalso; omega

theorem marchYearDay_range (z : Int) :
    0 ≤ (marchYearDay z).2 ∧ (marchYearDay z).2 ≤ 365 := by
  obtain ⟨a, b, c, e, r, s, t, u, heq, _, _, _, _, _, _, _, _, _, _, _, _, _, _, _, hu0, _,
    hu2⟩ := marchYearDay_spec z
  rw [heq]
  exact ⟨hu0, hu2⟩

/-- Month and day of a date lie between 1 and 12 and between 1 and 31. -/
theorem dateOfMarchYearDay_range (y u : Int) (h0 : 0 ≤ u) (h1 : u ≤ 365) :
    1 ≤ (dateOfMarchYearDay y u).month ∧ (dateOfMarchYearDay y u).month ≤ 12 ∧
      1 ≤ (dateOfMarchYearDay y u).day ∧ (dateOfMarchYearDay y u).day ≤ 31 := by
  have h2 : 0 ≤ (5 * u + 2) / 153 := by omega
  have h3 : (5 * u + 2) / 153 ≤ 11 := by omega
  simp only [dateOfMarchYearDay]
  generalize hq : (5 * u + 2) / 153 = q at *
  interval_cases q <;> simp <;> omega

/-- The order of pairs of a March-based year and a rank is the order of their
dates, read as year, then month, then day. -/
theorem dateOfMarchYearDay_mono (y u y' u' : Int) (h0 : 0 ≤ u) (h1 : u ≤ 365)
    (h0' : 0 ≤ u') (h1' : u' ≤ 365) (h : y < y' ∨ (y = y' ∧ u ≤ u')) :
    (dateOfMarchYearDay y u).year < (dateOfMarchYearDay y' u').year ∨
      ((dateOfMarchYearDay y u).year = (dateOfMarchYearDay y' u').year ∧
        ((dateOfMarchYearDay y u).month < (dateOfMarchYearDay y' u').month ∨
          ((dateOfMarchYearDay y u).month = (dateOfMarchYearDay y' u').month ∧
            (dateOfMarchYearDay y u).day ≤ (dateOfMarchYearDay y' u').day))) := by
  have h2 : 0 ≤ (5 * u + 2) / 153 := by omega
  have h3 : (5 * u + 2) / 153 ≤ 11 := by omega
  have h2' : 0 ≤ (5 * u' + 2) / 153 := by omega
  have h3' : (5 * u' + 2) / 153 ≤ 11 := by omega
  have hm : u ≤ u' → ((5 * u + 2) / 153 < (5 * u' + 2) / 153 ∨
      ((5 * u + 2) / 153 = (5 * u' + 2) / 153 ∧
        u - (153 * ((5 * u + 2) / 153) + 2) / 5 + 1 ≤
          u' - (153 * ((5 * u' + 2) / 153) + 2) / 5 + 1)) := by
    intro hu; omega
  simp only [dateOfMarchYearDay]
  generalize hq : (5 * u + 2) / 153 = q at *
  generalize hq' : (5 * u' + 2) / 153 = q' at *
  generalize u - (153 * q + 2) / 5 + 1 = d at *
  generalize u' - (153 * q' + 2) / 5 + 1 = d' at *
  split_ifs <;> omega

/-- Later days have later dates, read as year, then month, then day. -/
theorem civilFromDays_mono {z z' : Int} (h : z ≤ z') :
    (civilFromDays z).year < (civilFromDays z').year ∨
      ((civilFromDays z).year = (civilFromDays z').year ∧
        ((civilFromDays z).month < (civilFromDays z').month ∨
          ((civilFromDays z).month = (civilFromDays z').month ∧
            (civilFromDays z).day ≤ (civilFromDays z').day))) := by
  obtain ⟨hu0, hu1⟩ := marchYearDay_range z
  obtain ⟨hu0', hu1'⟩ := marchYearDay_range z'
  exact dateOfMarchYearDay_mono _ _ _ _ hu0 hu1 hu0' hu1' (marchYearDay_mono h)

theorem civilFromDays_range (z : Int) :
    1 ≤ (civilFromDays z).month ∧ (civilFromDays z).month ≤ 12 ∧
      1 ≤ (civilFromDays z).day ∧ (civilFromDays z).day ≤ 31 := by
  obtain ⟨hu0, hu1⟩ := marchYearDay_range z
  exact dateOfMarchYearDay_range _ _ hu0 hu1

/-! ### Formatting and the order of strings -/

theorem digitChar_toNat (n : Nat) : (digitChar n).toNat = 48 + n % 10 := by
  have h : n % 10 < 10 := Nat.mod_lt _ (by decide)
  unfold digitChar
  generalize n % 10 = k at h
  interval_cases k <;> rfl

theorem decimalDigits_small (fuel n : Nat) (h : n < 10) :
    decimalDigits (fuel + 1) n = [digitChar n] := by
  simp [decimalDigits, h]

theorem decimalDigits_step (fuel n : Nat) (h : ¬ n < 10) :
    decimalDigits (fuel + 1) n = decimalDigits fuel (n / 10) ++ [digitChar n] := by
  simp [decimalDigits, h]

/-- A number below 10000 is written on exactly four digits. -/
theorem appendInt_four (n : Nat) (h : n ≤ 9999) :
    appendInt (n : Int) 4 =
      [digitChar (n / 1000), digitChar (n / 100), digitChar (n / 10), digitChar n] := by
  have hneg : ¬ ((n : Int) < 0) := by omega
  simp only [appendInt, hneg, if_false, Int.natAbs_ofNat, List.nil_append]
  have e100 : n / 10 / 10 = n / 100 := by omega
  have e1000 : n / 10 / 10 / 10 = n / 1000 := by omega
  by_cases h1 : n < 10
  · have e1 : n / 1000 = 0 := by omega
    have e2 : n / 100 = 0 := by omega
    have e3 : n / 10 = 0 := by omega
    rw [decimalDigits_small 19 n h1, e1, e2, e3]
    rfl
  · rw [decimalDigits_step 19 n h1]
    by_cases h2 : n / 10 < 10
    · have e1 : n / 1000 = 0 := by omega
      have e2 : n / 100 = 0 := by omega
      rw [decimalDigits_small 18 _ h2, e1, e2]
      rfl
    · rw [decimalDigits_step 18 _ h2]
      by_cases h3 : n / 10 / 10 < 10
      · have e1 : n / 1000 = 0 := by omega
        rw [decimalDigits_small 17 _ h3, e1, e100]
        rfl
      · have h4 : n / 10 / 10 / 10 < 10 := by omega
        rw [decimalDigits_step 17 _ h3, decimalDigits_small 16 _ h4, e1000, e100]
        rfl

/-- A number below 100 is written on exactly two digits. -/
theorem appendInt_two (n : Nat) (h : n ≤ 99) :
    appendInt (n : Int) 2 = [digitChar (n / 10), digitChar n] := by
  have hneg : ¬ ((n : Int) < 0) := by omega
  simp only [appendInt, hneg, if_false, Int.natAbs_ofNat, List.nil_append]
  by_cases h1 : n < 10
  · have e3 : n / 10 = 0 := by omega
    rw [decimalDigits_small 19 n h1, e3]
    rfl
  · have h2 : n / 10 < 10 := by omega
    rw [decimalDigits_step 19 n h1, decimalDigits_small 18 _ h2]
    rfl

theorem lexLe_cons (a b : Char) (as bs : List Char) :
    lexLe (a :: as) (b :: bs) =
      if a.toNat < b.toNat then true
      else if b.toNat < a.toNat then false
      else lexLe as bs := by
  rw [lexLe]

theorem lexLe_nil (bs : List Char) : lexLe [] bs = true := by
  rw [lexLe]

theorem lexLe_digit_step (p q : Nat) (as bs : List Char)
    (h : p % 10 < q % 10 ∨ (p % 10 = q % 10 ∧ lexLe as bs = true)) :
    lexLe (digitChar p :: as) (digitChar q :: bs) = true := by
  rw [lexLe_cons, digitChar_toNat, digitChar_toNat]
  rcases h with h | ⟨h, h'⟩
  · rw [if_pos (by omega)]
  · rw [if_neg (by omega), if_neg (by omega), h']

theorem lexLe_same (c : Char) (as bs : List Char) (h : lexLe as bs = true) :
    lexLe (c :: as) (c :: bs) = true := by
  rw [lexLe_cons, if_neg (lt_irrefl _), if_neg (lt_irrefl _), h]

theorem lexLe_append_left (p as bs : List Char) (h : lexLe as bs = true) :
    lexLe (p ++ as) (p ++ bs) = true := by
  induction p with
  | nil => exact h
  | cons c p ih => exact lexLe_same c _ _ ih

/-- On dates written on ten characters the order of the strings is the
order of the dates. -/
theorem lexLe_tenChars (y m d y' m' d' : Nat) (hy : y ≤ 9999) (hy' : y' ≤ 9999)
    (hm : m ≤ 99) (hm' : m' ≤ 99) (hd : d ≤ 99) (hd' : d' ≤ 99)
    (h : y < y' ∨ (y = y' ∧ (m < m' ∨ (m = m' ∧ d ≤ d')))) :
    lexLe (tenChars y m d) (tenChars y' m' d') = true := by
  unfold tenChars
  have a1 : y / 100 / 10 = y / 1000 := Nat.div_div_eq_div_mul y 100 10
  have a2 : y / 10 / 10 = y / 100 := Nat.div_div_eq_div_mul y 10 10
  have a3 : y / 1000 / 10 = 0 := by omega
  have b1 : y' / 100 / 10 = y' / 1000 := Nat.div_div_eq_div_mul y' 100 10
  have b2 : y' / 10 / 10 = y' / 100 := Nat.div_div_eq_div_mul y' 10 10
  have b3 : y' / 1000 / 10 = 0 := by omega
  have c1 : m / 10 / 10 = 0 := by omega
  have c2 : m' / 10 / 10 = 0 := by omega
  have c3 : d / 10 / 10 = 0 := by omega
  have c4 : d' / 10 / 10 = 0 := by omega
  refine lexLe_digit_step _ _ _ _ ?_
  by_cases h3 : y / 1000 % 10 < y' / 1000 % 10
  · exact Or.inl h3
  refine Or.inr ⟨by omega, lexLe_digit_step _ _ _ _ ?_⟩
  by_cases h2 : y / 100 % 10 < y' / 100 % 10
  · exact Or.inl h2
  refine Or.inr ⟨by omega, lexLe_digit_step _ _ _ _ ?_⟩
  by_cases h1 : y / 10 % 10 < y' / 10 % 10
  · exact Or.inl h1
  refine Or.inr ⟨by omega, lexLe_digit_step _ _ _ _ ?_⟩
  by_cases h0 : y % 10 < y' % 10
  · exact Or.inl h0
  have hyy : y = y' := by omega
  refine Or.inr ⟨by omega, lexLe_same _ _ _ (lexLe_digit_step _ _ _ _ ?_)⟩
  by_cases k1 : m / 10 % 10 < m' / 10 % 10
  · exact Or.inl k1
  refine Or.inr ⟨by omega, lexLe_digit_step _ _ _ _ ?_⟩
  by_cases k0 : m % 10 < m' % 10
  · exact Or.inl k0
  have hmm : m = m' := by omega
  refine Or.inr ⟨by omega, lexLe_same _ _ _ (lexLe_digit_step _ _ _ _ ?_)⟩
  by_cases j1 : d / 10 % 10 < d' / 10 % 10
  · exact Or.inl j1
  refine Or.inr ⟨by omega, lexLe_digit_step _ _ _ _ ?_⟩
  by_cases j0 : d % 10 < d' % 10
  · exact Or.inl j0
  exact Or.inr ⟨by omega, lexLe_nil _⟩

/-- The formatted date of an instant whose year lies in 0..9999 has ten
characters. -/
theorem formatDate_data (t : Int) (hy0 : 0 ≤ (civilFromDays (unixDay t)).year)
    (hy1 : (civilFromDays (unixDay t)).year ≤ 9999) :
    (formatDate t).data =
      tenChars (civilFromDays (unixDay t)).year.toNat
        (civilFromDays (unixDay t)).month.toNat (civilFromDays (unixDay t)).day.toNat := by
  obtain ⟨hm0, hm1, hd0, hd1⟩ := civilFromDays_range (unixDay t)
  unfold formatDate
  simp only []
  generalize civilFromDays (unixDay t) = date at *
  obtain ⟨y, hy⟩ : ∃ y : Nat, date.year = y := ⟨date.year.toNat, by omega⟩
  obtain ⟨m, hm⟩ : ∃ m : Nat, date.month = m := ⟨date.month.toNat, by omega⟩
  obtain ⟨d, hd⟩ : ∃ d : Nat, date.day = d := ⟨date.day.toNat, by omega⟩
  rw [hy, hm, hd, appendInt_four y (by omega), appendInt_two m (by omega),
    appendInt_two d (by omega)]
  simp [tenChars]

/-- Formatting keeps the order of instants, as long as years are written on
four digits. -/
theorem formatDate_mono {t t' : Int} (h : t ≤ t')
    (hy0 : 0 ≤ (civilFromDays (unixDay t)).year)
    (hy1 : (civilFromDays (unixDay t')).year ≤ 9999) :
    lexLe (formatDate t).data (formatDate t').data = true := by
  have hdays : unixDay t ≤ unixDay t' := by
    unfold unixDay nanosPerDay
    omega
  have hmono := civilFromDays_mono hdays
  obtain ⟨hm0, hm1, hd0, hd1⟩ := civilFromDays_range (unixDay t)
  obtain ⟨hm0', hm1', hd0', hd1'⟩ := civilFromDays_range (unixDay t')
  rw [formatDate_data t hy0 (by omega), formatDate_data t' (by omega) hy1]
  apply lexLe_tenChars <;> omega

/-! ### The date range: the claims -/

theorem wrapInt64_range (x : Int) : -(2 ^ 63) ≤ wrapInt64 x ∧ wrapInt64 x < 2 ^ 63 := by
  unfold wrapInt64
  omega

/-- Every duration returned by `ParseDuration` is a 64-bit value. -/
theorem ParseDuration_range (s : String) :
    -(2 ^ 63) ≤ (ParseDuration s).1 ∧ (ParseDuration s).1 < 2 ^ 63 := by
  unfold ParseDuration
  split
  · simp
  · split
    · simp
    · split_ifs <;> first | exact wrapInt64_range _ | simp

/-- What the date range is when the age flag is accepted. -/
theorem dateRange_ok {now : Int} {ageStr startDate endDate : String}
    (h : dateRange now ageStr = .ok (startDate, endDate)) :
    (ParseDuration ageStr).2 = none ∧
      startDate = formatDate (now + wrapInt64 (-(ParseDuration ageStr).1)) ∧
      endDate = formatDate now ++ "~" := by
  unfold dateRange at h
  split at h
  · simp at h
  · next duration heq =>
    simp only [Except.ok.injEq, Prod.mk.injEq, timeAdd] at h
    rw [heq]
    exact ⟨rfl, h.1.symm, h.2.symm⟩

/-- A character of a time component sorts before the tilde. -/
theorem isTimeChar_lt_tilde {c : Char} (h : isTimeChar c = true) : c.toNat < '~'.toNat := by
  simp only [isTimeChar, Bool.or_eq_true, beq_iff_eq] at h
  rcases h with ((((((h | rfl) | rfl) | rfl) | rfl) | rfl) | rfl) | rfl
  · simp only [Char.isDigit, Bool.and_eq_true, decide_eq_true_eq] at h
    have h2 : c.val.toNat ≤ 57 := h.2
    show c.val.toNat < 126
    omega
  all_goals decide

/-- The formatted date of an instant in a year before year 0 begins with a
minus sign. -/
theorem formatDate_data_neg (t : Int) (h : (civilFromDays (unixDay t)).year < 0) :
    ∃ tail : List Char, (formatDate t).data = '-' :: tail := by
  unfold formatDate appendInt
  simp only [h, if_true]
  exact ⟨_, rfl⟩

/-- A date beginning with a minus sign sorts before any date written on ten
characters. -/
theorem lexLe_minus_tenChars (tail : List Char) (y m d : Nat) :
    lexLe ('-' :: tail) (tenChars y m d) = true := by
  unfold tenChars
  rw [lexLe_cons, digitChar_toNat]
  have h : ('-' : Char).toNat = 45 := rfl
  rw [h, if_pos (by omega)]

/-- C11, as amended: for every age flag that `ParseDuration` accepts with a
duration that is not negative, and every instant `now` whose year lies between
0 and 9999, the start date is at most the date of `now` in the order of
strings, the end date being that date followed by a tilde. -/
theorem dateRange_start_le_end (now : Int) (ageStr startDate endDate : String)
    (h : dateRange now ageStr = .ok (startDate, endDate))
    (hd : 0 ≤ (ParseDuration ageStr).1)
    (hy0 : 0 ≤ (civilFromDays (unixDay now)).year)
    (hy1 : (civilFromDays (unixDay now)).year ≤ 9999) :
    endDate = formatDate now ++ "~" ∧
      lexLe startDate.data (formatDate now).data = true := by
  obtain ⟨_, hs, he⟩ := dateRange_ok h
  have hr := ParseDuration_range ageStr
  have hneg : wrapInt64 (-(ParseDuration ageStr).1) = -(ParseDuration ageStr).1 :=
    wrapInt64_of_range (by omega) (by omega)
  rw [hneg] at hs
  have hsub : now + -(ParseDuration ageStr).1 = now - (ParseDuration ageStr).1 := by ring
  rw [hsub] at hs
  refine ⟨he, ?_⟩
  rw [hs]
  by_cases hstart : 0 ≤ (civilFromDays (unixDay (now - (ParseDuration ageStr).1))).year
  · exact formatDate_mono (by omega) hstart hy1
  · obtain ⟨tail, ht⟩ := formatDate_data_neg (now - (ParseDuration ageStr).1) (by omega)
    rw [ht, formatDate_data now hy0 hy1]
    exact lexLe_minus_tenChars _ _ _ _

/-- Witness for C11 as amended: the default age of seven days on 4 November
2026. -/
theorem dateRange_start_le_end_witness :
    ("2026-11-04~" : String) = formatDate 1793750400000000000 ++ "~" ∧
      lexLe ("2026-10-28" : String).data (formatDate 1793750400000000000).data = true :=
  dateRange_start_le_end 1793750400000000000 "7d" "2026-10-28" "2026-11-04~" rfl
    (by decide) (by decide) (by decide)

/-- The date range on 1 January of year 1 with an age of two years: the start
date falls before year 0, is written with a minus sign, and sorts before the
date of `now`. -/
theorem dateRange_before_year_zero :
    dateRange (-62135596800000000000) "2y" = .ok ("-0001-01-02", "0001-01-01~") ∧
      lexLe ("-0001-01-02" : String).data ("0001-01-01" : String).data = true := by
  refine ⟨rfl, by decide⟩

/-- C11 fails as stated.  The age "2562048h" is accepted, but its duration has
wrapped to a negative value: on 4 November 2026 the start date is in 2319 and
sorts after the end date.  On 1 January 10000 the age "1d" gives a start date
in 9999, which sorts after the five-digit year of the end date.  And on
1 January of year -3 the age "2y" gives a start date in year -5, which sorts
after the date of `now` as both are written with a minus sign. -/
theorem dateRange_start_after_end :
    (dateRange 1793750400000000000 "2562048h" = .ok ("2319-02-13", "2026-11-04~") ∧
      lexLe ("2319-02-13" : String).data ("2026-11-04" : String).data = false) ∧
    (dateRange 253402300800000000000 "1d" = .ok ("9999-12-31", "10000-01-01~") ∧
      lexLe ("9999-12-31" : String).data ("10000-01-01" : String).data = false) ∧
    (dateRange (-62261827200000000000) "2y" = .ok ("-0005-01-02", "-0003-01-01~") ∧
      lexLe ("-0005-01-02" : String).data ("-0003-01-01" : String).data = false) := by
  refine ⟨⟨rfl, by decide⟩, ⟨rfl, by decide⟩, ⟨rfl, by decide⟩⟩

/-- C17: the end date is the formatted date of `now` followed by a tilde, and
every key made of that date followed by a time component over digits, `T`,
`Z`, colon, hyphen, dot, plus and space, empty or not, is at most the end date
in the order of strings. -/
theorem endDate_bounds_same_day (now : Int) (ageStr startDate endDate : String)
    (h : dateRange now ageStr = .ok (startDate, endDate)) (timePart : List Char)
    (ht : ∀ c ∈ timePart, isTimeChar c = true) :
    endDate = formatDate now ++ "~" ∧
      lexLe ((formatDate now).data ++ timePart) endDate.data = true := by
  obtain ⟨_, _, he⟩ := dateRange_ok h
  refine ⟨he, ?_⟩
  have hdata : endDate.data = (formatDate now).data ++ ['~'] := by
    rw [he, String.data_append]
  rw [hdata]
  apply lexLe_append_left
  cases timePart with
  | nil => exact lexLe_nil _
  | cons c t =>
    have hc : c.toNat < '~'.toNat := isTimeChar_lt_tilde (ht c (by simp))
    rw [lexLe_cons, if_pos hc]

/-- Witness for C17: a sort key with a full timestamp on 4 November 2026. -/
theorem endDate_bounds_same_day_witness :
    ("2026-11-04~" : String) = formatDate 1793750400000000000 ++ "~" ∧
      lexLe ((formatDate 1793750400000000000).data ++ "T23:59:59.999+00:00Z".data)
        ("2026-11-04~" : String).data = true :=
  endDate_bounds_same_day 1793750400000000000 "7d" "2026-10-28" "2026-11-04~" rfl
    "T23:59:59.999+00:00Z".data (by decide)

end CelestialCobra
